import Mathlib

/-!
Verification development for the `envs` Go package (struct-walking
environment parser, `struct.go`).

Go strings are modelled as `List Char` (`GS`), Go byte/rune handling being
irrelevant to the properties below (all exercised strings are ASCII).
Pure helpers from `struct.go` are translated one-to-one; the reflective
walker `ParseStruct`/`ParseValue` is translated into a recursive walk over
an explicit model of Go types and values.  External collaborators
(`os.Getenv` behind `ValueFunc`, `time.Parse`, `time.ParseDuration`,
`url.Parse`, `strconv.ParseFloat`, user `ParseEnv` implementations) are
parameters of the model; `strconv.ParseInt` / `ParseUint` / `ParseBool`
are modelled concretely since claims depend on their exact behaviour.
-/

/-- Go strings, modelled as lists of characters. -/
abbrev GS := List Char

/-- Model of Go `unicode.IsSpace` restricted to the ASCII whitespace that
can appear in struct tags. -/
def isGoSpace (c : Char) : Bool :=
  c = ' ' || c = '\t' || c = '\n' || c = '\r'

/-- Model of Go `strings.TrimSpace`. -/
def goTrimSpace (s : GS) : GS :=
  ((s.dropWhile isGoSpace).reverse.dropWhile isGoSpace).reverse

/-- Model of Go `strings.ToUpper` (ASCII). -/
def goToUpper (s : GS) : GS := s.map Char.toUpper

/-- Matches the regex class `[a-z0-9]` of `convertUpperCaseWithUnderLine`. -/
def isLowerOrDigit (c : Char) : Bool :=
  ('a' ≤ c && c ≤ 'z') || ('0' ≤ c && c ≤ '9')

/-- Matches the regex class `[A-Z]`. -/
def isUpperAZ (c : Char) : Bool := 'A' ≤ c && c ≤ 'Z'

/-- Model of `convertUpperCaseWithUnderLine` (struct.go:345): the regex
`([a-z0-9])([A-Z])` is replaced by `${1}_${2}`, left to right and
non-overlapping (each match consumes both characters). -/
def convertUpperCaseWithUnderLine : GS → GS
  | c1 :: c2 :: rest =>
    if isLowerOrDigit c1 && isUpperAZ c2 then
      c1 :: '_' :: c2 :: convertUpperCaseWithUnderLine rest
    else
      c1 :: convertUpperCaseWithUnderLine (c2 :: rest)
  | s => s

/-- Model of Go `strings.Split` for a single-character separator (all
separators used by `struct.go` are single characters). -/
def splitChar (sep : Char) : GS → List GS
  | [] => [[]]
  | c :: rest =>
    if c = sep then [] :: splitChar sep rest
    else
      match splitChar sep rest with
      | t :: ts => (c :: t) :: ts
      | [] => [[c]]

/-- Model of Go `strings.Join` for a single-character separator. -/
def joinChar (sep : Char) : List GS → GS
  | [] => []
  | [x] => x
  | x :: xs => x ++ sep :: joinChar sep xs

/-- `containsSeq pat s` holds when `pat` occurs as a contiguous
subsequence of `s` (Go `strings.Contains`). -/
def containsSeq (pat : GS) : GS → Bool
  | [] => pat.isPrefixOf []
  | c :: rest => pat.isPrefixOf (c :: rest) || containsSeq pat rest

/-- Model of Go `strings.ReplaceAll(s, pat, "")`: remove every occurrence
of `pat`, scanning left to right, non-overlapping.  The `pat ≠ []` guard
only serves termination; `struct.go` always calls it with `"default="`. -/
def removeAll (pat : GS) (s : GS) : GS :=
  match s with
  | [] => []
  | c :: rest =>
    if pat ≠ [] ∧ pat.isPrefixOf (c :: rest) then
      removeAll pat (List.drop pat.length (c :: rest))
    else
      c :: removeAll pat rest
termination_by s.length
decreasing_by
  · rename_i h
    simp only [List.length_drop, List.length_cons]
    have hp : 0 < pat.length := List.length_pos.mpr h.1
    have hle : pat.length ≤ (c :: rest).length :=
      (List.isPrefixOf_iff_prefix.mp h.2).length_le
    simp only [List.length_cons] at hle
    omega
  · simp

/-- The literal marker `"default="`. -/
def defaultMarker : GS := "default=".data

/-- Model of `parseStructTags` (struct.go:323): trim; `"-"` or empty gives
`("", "")`; otherwise split on commas, key is segment 0; `"default="` is
removed (everywhere) from segment 1; segments 1.. are rejoined with commas
into the default when there are more than two segments. -/
def parseStructTags (tagVal : GS) : GS × GS :=
  let t := goTrimSpace tagVal
  if t = "-".data ∨ t = [] then ([], [])
  else
    let parts := splitChar ',' t
    let key := parts.headD []
    if parts.length < 2 then (key, [])
    else
      let p1 := removeAll defaultMarker (parts.getD 1 [])
      let d := if parts.length > 2 then joinChar ',' (p1 :: parts.drop 2) else p1
      (key, d)

/-- The separator priority list `stringSeparators` (struct.go:24); note the
source literally lists `";"` twice. -/
def stringSeparators : List Char := [',', ';', ';', '-', ' ']

/-- The loop of `splitStr` (struct.go:300): try each separator in order,
return the first split whose head differs from the whole string;
otherwise fall through holding the last attempted split. -/
def splitStrLoop (value : GS) : List Char → List GS → List GS
  | [], last => last
  | sep :: seps, _ =>
    let split := splitChar sep value
    if split.headD [] ≠ value then split else splitStrLoop value seps split

/-- Model of `splitStr` (struct.go:300). -/
def splitStr (value : GS) : List GS :=
  splitStrLoop value stringSeparators []

/-- Decimal digit run to a natural number; `none` unless the string is one
or more decimal digits. -/
def digitsVal : GS → Option Nat
  | [] => none
  | s => go s 0
where
  go : GS → Nat → Option Nat
    | [], acc => some acc
    | c :: rest, acc =>
      if c.isDigit then go rest (acc * 10 + (c.toNat - '0'.toNat)) else none

/-- Model of Go `strconv.ParseInt(s, 10, 64)`: optional `+`/`-` sign,
decimal digits, 64-bit signed range; the error carries the offending
string (`strconv.NumError`). -/
def goParseInt64 (s : GS) : Except GS Int :=
  let syntaxErr : GS := "strconv.ParseInt: parsing ".data ++ s ++ ": invalid syntax".data
  let rangeErr : GS := "strconv.ParseInt: parsing ".data ++ s ++ ": value out of range".data
  match s with
  | [] => .error syntaxErr
  | c :: rest =>
    let (neg, digits) :=
      if c = '+' then (false, rest) else if c = '-' then (true, rest) else (false, c :: rest)
    match digitsVal digits with
    | none => .error syntaxErr
    | some m =>
      if neg then
        if m ≤ 2 ^ 63 then .ok (-(m : Int)) else .error rangeErr
      else
        if m ≤ 2 ^ 63 - 1 then .ok (m : Int) else .error rangeErr

/-- Model of Go `strconv.ParseUint(s, 10, 64)`: no sign permitted, decimal
digits, 64-bit unsigned range. -/
def goParseUint64 (s : GS) : Except GS Nat :=
  let syntaxErr : GS := "strconv.ParseUint: parsing ".data ++ s ++ ": invalid syntax".data
  let rangeErr : GS := "strconv.ParseUint: parsing ".data ++ s ++ ": value out of range".data
  match digitsVal s with
  | none => .error syntaxErr
  | some m => if m ≤ 2 ^ 64 - 1 then .ok m else .error rangeErr

/-- Model of Go `strconv.ParseBool`. -/
def goParseBool (s : GS) : Except GS Bool :=
  if s = "1".data ∨ s = "t".data ∨ s = "T".data ∨ s = "true".data ∨
      s = "TRUE".data ∨ s = "True".data then .ok true
  else if s = "0".data ∨ s = "f".data ∨ s = "F".data ∨ s = "false".data ∨
      s = "FALSE".data ∨ s = "False".data then .ok false
  else .error ("strconv.ParseBool: parsing ".data ++ s ++ ": invalid syntax".data)

/-- Two's-complement truncation of an integer to `w` bits: the semantics
of Go `reflect.Value.SetInt` writing an `int64` into a narrower field. -/
def truncInt (w : Nat) (n : Int) : Int :=
  (n + 2 ^ (w - 1)) % 2 ^ w - 2 ^ (w - 1)

/-- Truncation of a natural to `w` bits: `reflect.Value.SetUint`. -/
def truncUint (w : Nat) (n : Nat) : Nat := n % 2 ^ w

/-- The Go kinds (`reflect.Kind`) distinguished by `struct.go`. -/
inductive GoKind where
  | kstr | kint | kuint | kfloat | kbool
  | kmap | kslice | kstruct
  | kptr | kchan | kiface | kcomplex | kfunc
deriving DecidableEq

/-- Field metadata of a Go struct field: declared name, optional `env`
struct tag, exportedness. -/
structure FieldMeta where
  name : GS
  tag : Option GS
  exported : Bool
deriving DecidableEq

/-- Model of the Go types the walker dispatches on.  `tint`/`tuint` carry
the bit width (plain `int`/`uint` are 64 on the platforms exercised);
`ttime`, `tdur`, `turl` are the three registered named types
(`time.Time`, `time.Duration`, `*url.URL`); `tstruct` carries whether the
pointer type implements `EnvParser`, and the field list; `tptr`, `tchan`,
`tiface`, `tcomplex`, `tfunc` are the kinds `ParseValue` has no case
for. -/
inductive GoTy where
  | tstr : GoTy
  | tint : Nat → GoTy
  | tuint : Nat → GoTy
  | tfloat : GoTy
  | tbool : GoTy
  | ttime : GoTy
  | tdur : GoTy
  | turl : GoTy
  | tmap : GoTy → GoTy → GoTy
  | tslice : GoTy → GoTy
  | tstruct : Bool → List (FieldMeta × GoTy) → GoTy
  | tptr : GoTy → GoTy
  | tchan : GoTy
  | tiface : GoTy
  | tcomplex : GoTy
  | tfunc : GoTy

/-- `reflect.Type.Kind` on the modelled types.  `time.Time` is a struct
type, `time.Duration` an `int64`, `*url.URL` a pointer. -/
def kindOf : GoTy → GoKind
  | .tstr => .kstr
  | .tint _ => .kint
  | .tuint _ => .kuint
  | .tfloat => .kfloat
  | .tbool => .kbool
  | .ttime => .kstruct
  | .tdur => .kint
  | .turl => .kptr
  | .tmap _ _ => .kmap
  | .tslice _ => .kslice
  | .tstruct _ _ => .kstruct
  | .tptr _ => .kptr
  | .tchan => .kchan
  | .tiface => .kiface
  | .tcomplex => .kcomplex
  | .tfunc => .kfunc

/-- `reflect.Kind.String` for the kinds above (used in error texts). -/
def kindName : GoKind → GS
  | .kstr => "string".data
  | .kint => "int".data
  | .kuint => "uint".data
  | .kfloat => "float64".data
  | .kbool => "bool".data
  | .kmap => "map".data
  | .kslice => "slice".data
  | .kstruct => "struct".data
  | .kptr => "ptr".data
  | .kchan => "chan".data
  | .kiface => "interface".data
  | .kcomplex => "complex128".data
  | .kfunc => "func".data

/-- Model of the Go values the walker reads and writes.  Payloads the
walker never interprets are opaque: a time, URL or float value remembers
the string it was parsed from (`none` = zero value); `vother` stands for
values of the unhandled kinds and carries an arbitrary tag so that
"left unchanged" is observable. -/
inductive GoVal where
  | vstr : GS → GoVal
  | vint : Nat → Int → GoVal
  | vuint : Nat → Nat → GoVal
  | vfloat : Option GS → GoVal
  | vbool : Bool → GoVal
  | vtime : Option GS → GoVal
  | vdur : Int → GoVal
  | vurl : Option GS → GoVal
  | vmap : GoTy → GoTy → List (GoVal × GoVal) → GoVal
  | vslice : GoTy → List GoVal → GoVal
  | vstruct : List GoVal → GoVal
  | vother : Nat → GoVal

mutual

/-- Structural equality of modelled Go types. -/
def tyBEq : GoTy → GoTy → Bool
  | .tstr, .tstr => true
  | .tint w, .tint w' => w = w'
  | .tuint w, .tuint w' => w = w'
  | .tfloat, .tfloat => true
  | .tbool, .tbool => true
  | .ttime, .ttime => true
  | .tdur, .tdur => true
  | .turl, .turl => true
  | .tmap k v, .tmap k' v' => tyBEq k k' && tyBEq v v'
  | .tslice e, .tslice e' => tyBEq e e'
  | .tstruct b fs, .tstruct b' fs' => b = b' && tyFieldsBEq fs fs'
  | .tptr t, .tptr t' => tyBEq t t'
  | .tchan, .tchan => true
  | .tiface, .tiface => true
  | .tcomplex, .tcomplex => true
  | .tfunc, .tfunc => true
  | _, _ => false

/-- Structural equality of field lists. -/
def tyFieldsBEq : List (FieldMeta × GoTy) → List (FieldMeta × GoTy) → Bool
  | [], [] => true
  | (m, t) :: fs, (m', t') :: fs' => m = m' && tyBEq t t' && tyFieldsBEq fs fs'
  | _, _ => false

end

mutual

/-- Structural equality of modelled Go values: the model of Go `==` on
map keys in `reflect.Value.SetMapIndex`. -/
def valBEq : GoVal → GoVal → Bool
  | .vstr s, .vstr s' => s = s'
  | .vint w n, .vint w' n' => w = w' && n = n'
  | .vuint w n, .vuint w' n' => w = w' && n = n'
  | .vfloat x, .vfloat x' => x = x'
  | .vbool b, .vbool b' => b = b'
  | .vtime t, .vtime t' => t = t'
  | .vdur d, .vdur d' => d = d'
  | .vurl u, .vurl u' => u = u'
  | .vmap kt vt es, .vmap kt' vt' es' =>
    tyBEq kt kt' && tyBEq vt vt' && valPairsBEq es es'
  | .vslice et xs, .vslice et' xs' => tyBEq et et' && valListBEq xs xs'
  | .vstruct xs, .vstruct xs' => valListBEq xs xs'
  | .vother n, .vother n' => n = n'
  | _, _ => false

/-- Pointwise `valBEq` on lists. -/
def valListBEq : List GoVal → List GoVal → Bool
  | [], [] => true
  | x :: xs, y :: ys => valBEq x y && valListBEq xs ys
  | _, _ => false

/-- Pointwise `valBEq` on association lists. -/
def valPairsBEq : List (GoVal × GoVal) → List (GoVal × GoVal) → Bool
  | [], [] => true
  | (k, v) :: xs, (k', v') :: ys => valBEq k k' && valBEq v v' && valPairsBEq xs ys
  | _, _ => false

end

mutual

/-- `reflect.New(t).Elem()`: the zero value of a type. -/
def zeroVal : GoTy → GoVal
  | .tstr => .vstr []
  | .tint w => .vint w 0
  | .tuint w => .vuint w 0
  | .tfloat => .vfloat none
  | .tbool => .vbool false
  | .ttime => .vtime none
  | .tdur => .vdur 0
  | .turl => .vurl none
  | .tmap kt vt => .vmap kt vt []
  | .tslice et => .vslice et []
  | .tstruct _ fs => .vstruct (zeroFields fs)
  | .tptr _ => .vother 0
  | .tchan => .vother 0
  | .tiface => .vother 0
  | .tcomplex => .vother 0
  | .tfunc => .vother 0

/-- Zero values of a struct's fields. -/
def zeroFields : List (FieldMeta × GoTy) → List GoVal
  | [] => []
  | f :: fs => zeroVal f.2 :: zeroFields fs

end

/-- Model of the `Parser` struct (struct.go:65): the pluggable key
transform `BuildKey` and value source `Get`. -/
structure Parser where
  buildKey : GS → GS
  get : GS → GS → GS

/-- External collaborators of the walker, as opaque parameters:
`time.Parse` (per layout), `time.ParseDuration`, `url.Parse`,
`strconv.ParseFloat`, and the user-supplied `ParseEnv` method of types
implementing `EnvParser` (given the composed key and the current value,
returns the updated value and an optional error).  A successful time,
URL or float parse is represented by the accepted string. -/
structure Externals where
  timeParse : GS → GS → Option GS
  durParse : GS → Option Int
  urlParse : GS → Option GS
  floatParse : GS → Option GS
  parseEnvImpl : GS → GoVal → GoVal × Option GS

/-- Calls the walker makes to its collaborators: `get k d` is a call
`m.Get(k, d)` with the already-transformed key `k` and the tag default
`d`; `penv k` is a call to a `ParseEnv` method with prefix `k`. -/
inductive Ev where
  | get : GS → GS → Ev
  | penv : GS → Ev
deriving DecidableEq

/-- Key composition of `ParseStruct` (struct.go:121): prepend the prefix
with a dot unless the prefix is empty. -/
def composeKey (pre key : GS) : GS :=
  if pre ≠ [] then pre ++ '.' :: key else key

/-- The `timeFormats` list (struct.go:20). -/
def timeFormats : List GS :=
  ["2006-01-02".data, "15:04:05".data, "2006-01-02 15:04:05".data,
   "2006-01-02 15:04:05-07:00".data, "3:04PM".data,
   "2006-01-02T15:04:05Z07:00".data, "Mon, 02 Jan 2006 15:04:05 MST".data,
   "Mon, 02 Jan 2006 15:04:05 -0700".data, "Mon Jan _2 15:04:05 2006".data,
   "2006/01/02".data, "2006/01/02 15:04:05".data,
   "Mon Jan _2 15:04:05 MST 2006".data, "Mon Jan 02 15:04:05 -0700 2006".data]

/-- The loop of `parseTime` (struct.go:311): first layout that parses
wins; when all fail the joined errors are returned. -/
def parseTimeLoop (ext : Externals) (value : GS) : List GS → Except GS GS
  | [] => .error ("time: could not parse ".data ++ value ++ " with any layout".data)
  | fmt :: fmts =>
    match ext.timeParse fmt value with
    | some t => .ok t
    | none => parseTimeLoop ext value fmts

/-- Model of `parseTime` (struct.go:311). -/
def parseTime (ext : Externals) (value : GS) : Except GS GS :=
  parseTimeLoop ext value timeFormats

/-- Model of `reflect.Value.SetMapIndex`: overwrite an existing key or
append a new entry. -/
def setMapIndex (entries : List (GoVal × GoVal)) (k v : GoVal) :
    List (GoVal × GoVal) :=
  if entries.any (fun e => valBEq e.1 k) then
    entries.map (fun e => if valBEq e.1 k then (k, v) else e)
  else
    entries ++ [(k, v)]

/-- The `Grow`/`SetLen` step of `parseArray` (struct.go:282): resize the
slice to exactly `n`, keeping existing elements and zero-filling grown
space. -/
def resizeList (et : GoTy) (n : Nat) (xs : List GoVal) : List GoVal :=
  xs.take n ++ List.replicate (n - xs.length) (zeroVal et)

/-- The error of `parseMap` for a pair token without a colon
(struct.go:258). -/
def mapPairFormatErr (pair : GS) : GS :=
  pair ++ " can not is in wrong format as key value pair".data

/-- The wrapping error of `parseMap` when a key or value fails to parse
(struct.go:267, 271). -/
def mapElemParseErr (s : GS) (t : GoTy) : GS :=
  s ++ " can not be parsed as ".data ++ kindName (kindOf t)

/-- Error of `ParseStruct` for a non-pointer destination (struct.go:90). -/
def notPointerErr (k : GoKind) : GS :=
  "Kind ".data ++ kindName k ++ " is not a pointer".data

/-- Error of `ParseStruct` for a pointer to a non-struct (struct.go:99). -/
def notStructErr (k : GoKind) : GS :=
  "destination is of type ".data ++ kindName k ++ " and not struct".data

/-- Error used when the modelled `time.ParseDuration` fails. -/
def durationErr (s : GS) : GS := "time: invalid duration ".data ++ s

/-- Error used when the modelled `url.Parse` fails. -/
def urlErr (s : GS) : GS := "parse ".data ++ s ++ ": invalid URL".data

/-- Error used when the modelled `strconv.ParseFloat` fails. -/
def floatErr (s : GS) : GS :=
  "strconv.ParseFloat: parsing ".data ++ s ++ ": invalid syntax".data

/-- The tag value used for a field (struct.go:114): the `env` tag when
present, otherwise the field name converted to UPPER_SNAKE_CASE. -/
def fieldTagVal (meta : FieldMeta) : GS :=
  match meta.tag with
  | some tv => tv
  | none => goToUpper (convertUpperCaseWithUnderLine meta.name)

/-- The current backing list of a slice value (`reflect.Value.Len` /
element access); a non-slice payload has no elements. -/
def sliceElems : GoVal → List GoVal
  | .vslice _ xs => xs
  | _ => []

/-- The field values of a struct value. -/
def structFieldsOf : GoVal → Option (List GoVal)
  | .vstruct vs => some vs
  | _ => none

mutual

/-- Model of `ParseValue` (struct.go:143).  `reflectValue.CanSet()` is
always true here (every value reached is a field of an addressable
struct, or a fresh `reflect.New`), so the early `CanSet` return never
fires; the `r.Func` early return is the `tfunc` arm.  The named-type
switch (`time.Time`, `*url.URL`, `time.Duration`) precedes the kind
switch exactly as in the source; matching on the modelled type directly
is equivalent because the named types are distinct constructors.  The
result is the updated value, the calls made to collaborators, and the
returned error. -/
def ParseValue (p : Parser) (ext : Externals) (ty : GoTy) (v : GoVal)
    (strValue pre key : GS) : GoVal × List Ev × Option GS :=
  match ty with
  | .ttime =>
    match parseTime ext strValue with
    | .ok t => (.vtime (some t), [], none)
    | .error e => (v, [], some e)
  | .turl =>
    match ext.urlParse strValue with
    | some u => (.vurl (some u), [], none)
    | none => (v, [], some (urlErr strValue))
  | .tdur =>
    match ext.durParse strValue with
    | some d => (.vdur d, [], none)
    | none => (v, [], some (durationErr strValue))
  | .tstr => (.vstr strValue, [], none)
  | .tint w =>
    match goParseInt64 strValue with
    | .ok n => (.vint w (truncInt w n), [], none)
    | .error e => (v, [], some e)
  | .tuint w =>
    match goParseUint64 strValue with
    | .ok n => (.vuint w (truncUint w n), [], none)
    | .error e => (v, [], some e)
  | .tfloat =>
    match ext.floatParse strValue with
    | some f => (.vfloat (some f), [], none)
    | none => (v, [], some (floatErr strValue))
  | .tbool =>
    match goParseBool strValue with
    | .ok b => (.vbool b, [], none)
    | .error e => (v, [], some e)
  | .tmap kt vt =>
    -- parseMap (struct.go:245): allocate a fresh map, then fill it from
    -- the pair tokens; on error the entries inserted so far remain.
    let kv := splitStr strValue
    let r := parseMapPairs p ext kt vt kv []
    (.vmap kt vt r.1, r.2.1, r.2.2)
  | .tslice et =>
    -- parseArray (struct.go:279): resize to the split count, then parse
    -- each element with the current key as prefix and no per-element key.
    let splits := splitStr strValue
    let init := resizeList et splits.length (sliceElems v)
    let r := parseArrayElems p ext et key splits init
    (.vslice et r.1, r.2.1, r.2.2)
  | .tstruct sp fs =>
    if sp then
      -- the pointer type implements EnvParser (struct.go:216): call
      -- ParseEnv with the composed key and propagate its result verbatim
      let r := ext.parseEnvImpl key v
      (r.1, [.penv key], r.2)
    else if fs.isEmpty then
      -- struct.go:233 returns early for the empty anonymous struct type
      -- struct\x7b\x7d (walking an empty field list is a no-op anyway)
      (v, [], none)
    else
      match structFieldsOf v with
      | some vs =>
        let r := parseStructFields p ext key fs vs
        (.vstruct r.1, r.2.1, r.2.2)
      | none => (v, [], none)
  | .tptr _ => (v, [], none)
  | .tchan => (v, [], none)
  | .tiface => (v, [], none)
  | .tcomplex => (v, [], none)
  | .tfunc => (v, [], none)
termination_by (sizeOf ty, 0)

/-- One iteration of the field loop of `ParseStruct` (struct.go:105-135):
skip unexported fields; compute the tag value, key and default; resolve
the value through `BuildKey` and `Get`; skip scalar fields that resolved
empty; otherwise dispatch to `ParseValue`. -/
def parseField (p : Parser) (ext : Externals) (pre : GS) (meta : FieldMeta)
    (ty : GoTy) (v : GoVal) : GoVal × List Ev × Option GS :=
  if meta.exported then
    let kd := parseStructTags (fieldTagVal meta)
    let key := composeKey pre kd.1
    let strValues := p.get (p.buildKey key) kd.2
    if strValues = [] ∧ kindOf ty ≠ .kstruct then
      (v, [.get (p.buildKey key) kd.2], none)
    else
      let r := ParseValue p ext ty v strValues pre key
      (r.1, .get (p.buildKey key) kd.2 :: r.2.1, r.2.2)
  else
    (v, [], none)
termination_by (sizeOf ty + 1, 0)

/-- The field loop of `ParseStruct`: first error aborts the walk and is
returned; already processed fields keep their new values, remaining
fields keep their old ones. -/
def parseStructFields (p : Parser) (ext : Externals) (pre : GS) :
    List (FieldMeta × GoTy) → List GoVal → List GoVal × List Ev × Option GS
  | [], vs => (vs, [], none)
  | _ :: _, [] => ([], [], none)
  | (meta, fty) :: fs, v :: vs =>
    let r := parseField p ext pre meta fty v
    match r.2.2 with
    | some e => (r.1 :: vs, r.2.1, some e)
    | none =>
      let rr := parseStructFields p ext pre fs vs
      (r.1 :: rr.1, r.2.1 ++ rr.2.1, rr.2.2)
termination_by fs _ => (sizeOf fs, 0)

/-- The pair loop of `parseMap` (struct.go:255-275): split each token on
`":"`, take segments 0 and 1 trimmed, parse them as fresh key/value
zero values, insert with `SetMapIndex`; a token with fewer than two
segments or a failing key/value parse aborts with an error. -/
def parseMapPairs (p : Parser) (ext : Externals) (kt vt : GoTy) :
    List GS → List (GoVal × GoVal) →
    List (GoVal × GoVal) × List Ev × Option GS
  | [], entries => (entries, [], none)
  | pair :: pairs, entries =>
    match splitChar ':' pair with
    | k0 :: v0 :: _ =>
      let keyStr := goTrimSpace k0
      let valStr := goTrimSpace v0
      let rk := ParseValue p ext kt (zeroVal kt) keyStr [] []
      match rk.2.2 with
      | some _ => (entries, rk.2.1, some (mapElemParseErr keyStr kt))
      | none =>
        let rv := ParseValue p ext vt (zeroVal vt) valStr [] []
        match rv.2.2 with
        | some _ => (entries, rk.2.1 ++ rv.2.1, some (mapElemParseErr valStr vt))
        | none =>
          let rr := parseMapPairs p ext kt vt pairs (setMapIndex entries rk.1 rv.1)
          (rr.1, rk.2.1 ++ rv.2.1 ++ rr.2.1, rr.2.2)
    | [_] => (entries, [], some (mapPairFormatErr pair))
    | [] => (entries, [], some (mapPairFormatErr pair))
termination_by pairs _ => (sizeOf kt + sizeOf vt, pairs.length + 1)
decreasing_by
  all_goals simp_wf
  · have hv : 0 < sizeOf vt := by cases vt <;> simp_arith
    apply Prod.Lex.left
    omega
  · have hk : 0 < sizeOf kt := by cases kt <;> simp_arith
    apply Prod.Lex.left
    omega
  · apply Prod.Lex.right
    omega

/-- The element loop of `parseArray` (struct.go:288-295): each split is
trimmed and parsed into its slot, with the slice's composed key as
prefix and an empty per-element key; the first error aborts. -/
def parseArrayElems (p : Parser) (ext : Externals) (et : GoTy) (curKey : GS) :
    List GS → List GoVal → List GoVal × List Ev × Option GS
  | [], vs => (vs, [], none)
  | _ :: _, [] => ([], [], none)
  | s :: ss, v :: vs =>
    let r := ParseValue p ext et v (goTrimSpace s) curKey []
    match r.2.2 with
    | some e => (r.1 :: vs, r.2.1, some e)
    | none =>
      let rr := parseArrayElems p ext et curKey ss vs
      (r.1 :: rr.1, r.2.1 ++ rr.2.1, rr.2.2)
termination_by ss _ => (sizeOf et, ss.length + 1)

end

/-- The destination argument of `ParseStruct` as seen through
`reflect.ValueOf(dest)`: a non-pointer value (only its kind matters), a
typed nil pointer, or a valid pointer to a value. -/
inductive Dest where
  | notPtr : GoKind → Dest
  | nilPtr : GoTy → Dest
  | ptrTo : GoTy → GoVal → Dest

/-- Result of a top-level `ParseStruct` call: a Go panic, or a normal
return carrying the (possibly partially updated) destination value, the
collaborator calls made, and the returned error. -/
inductive TopOut where
  | panicked : GS → TopOut
  | ret : Option GoVal → List Ev → Option GS → TopOut

/-- The panic message of `reflect.Value.Set` on a value that is not
addressable — which is what `reflect.ValueOf` of an interface argument
yields. -/
def setUnaddressableMsg : GS :=
  "reflect: reflect.Value.Set using unaddressable value".data

/-- Model of `ParseStruct` (struct.go:85): reject non-pointer
destinations; for a nil pointer the source executes
`dst.Set(r.New(dst.Type().Elem()))`, but `dst` was obtained from
`reflect.ValueOf(dest)` and is therefore not addressable, so this `Set`
always panics; reject pointers to non-structs; otherwise run the field
loop.  A pointer to `time.Time` (also of struct kind) walks a struct
whose fields are all unexported, a no-op. -/
def ParseStruct (p : Parser) (ext : Externals) (dest : Dest) (pre : GS) :
    TopOut :=
  match dest with
  | .notPtr k => .ret none [] (some (notPointerErr k))
  | .nilPtr _ => .panicked setUnaddressableMsg
  | .ptrTo ty v =>
    match ty with
    | .tstruct _ fs =>
      match v with
      | .vstruct vs =>
        let r := parseStructFields p ext pre fs vs
        .ret (some (.vstruct r.1)) r.2.1 r.2.2
      | _ => .ret (some v) [] none
    | .ttime => .ret (some v) [] none
    | t => .ret (some v) [] (some (notStructErr (kindOf t)))

/-- The error component of a `TopOut` (a panic has no error value). -/
def TopOut.errOf : TopOut → Option GS
  | .panicked _ => none
  | .ret _ _ e => e

/-- The returned destination value of a `TopOut`. -/
def TopOut.valOf : TopOut → Option GoVal
  | .panicked _ => none
  | .ret v _ _ => v

/-- The collaborator calls recorded by a `TopOut`. -/
def TopOut.trOf : TopOut → List Ev
  | .panicked _ => []
  | .ret _ tr _ => tr

/-- Model of `DefaultKeyFunc` (struct.go:47): trim and replace every `.`
with `_`. -/
def DefaultKeyFunc (key : GS) : GS :=
  (goTrimSpace key).map (fun c => if c = '.' then '_' else c)

/-- `hasChar c s`: the character occurs in the string. -/
def hasChar (c : Char) (s : GS) : Bool := s.any (fun x => x = c)

/-- The separator priority order as the spec words it: comma, semicolon,
hyphen, space (the duplicated semicolon of the source is redundant). -/
def splitSpecOrder : List Char := [',', ';', '-', ' ']

/-- Spec-side restatement of the splitting contract, for comparison with
`splitStr`: split on the first separator, in the fixed priority order,
that occurs in the string; when none occurs the result is the one-element
list holding the whole string. -/
def splitStrSpec (value : GS) : List GS :=
  match splitSpecOrder.find? (fun c => hasChar c value) with
  | some c => splitChar c value
  | none => [value]

/-- A linear chain of nested struct types, used to state the key
composition law at arbitrary nesting depth: each level is a struct with a
single exported field tagged `k`, whose type is a string (`last`), a
self-parsing struct (`spLast`), or the next level (`nest`). -/
inductive Chain where
  | last : GS → Chain
  | spLast : GS → Chain
  | nest : GS → Chain → Chain

/-- The field metadata used at each chain level: one exported field `F`
with an explicit `env` tag. -/
def chainMeta (k : GS) : FieldMeta :=
  { name := "F".data, tag := some k, exported := true }

/-- The Go struct type a chain describes. -/
def chainTy : Chain → GoTy
  | .last k => .tstruct false [(chainMeta k, .tstr)]
  | .spLast k => .tstruct false [(chainMeta k, .tstruct true [])]
  | .nest k c => .tstruct false [(chainMeta k, chainTy c)]

/-- The dotted relative path of the deepest field of a chain. -/
def chainPath : Chain → GS
  | .last k => k
  | .spLast k => k
  | .nest k c => k ++ '.' :: chainPath c

/-- Whether the chain ends in a self-parsing struct. -/
def chainEndsSp : Chain → Bool
  | .last _ => false
  | .spLast _ => true
  | .nest _ c => chainEndsSp c

/-- Every chain key is a plain lookup key for the tag grammar: it parses
to itself with an empty default (no commas, no surrounding whitespace,
not `-`, not empty). -/
def ChainGood : Chain → Prop
  | .last k => parseStructTags k = (k, [])
  | .spLast k => parseStructTags k = (k, [])
  | .nest k c => parseStructTags k = (k, []) ∧ ChainGood c

/-- The collaborator calls the walker is expected to make on a chain:
one `Get` per level with the transform applied to the composed key, and
for a self-parsing tail one `ParseEnv` call with the untransformed
composed key. -/
def chainEvents (p : Parser) (pre : GS) : Chain → List Ev
  | .last k => [.get (p.buildKey (composeKey pre k)) []]
  | .spLast k =>
    [.get (p.buildKey (composeKey pre k)) [], .penv (composeKey pre k)]
  | .nest k c =>
    .get (p.buildKey (composeKey pre k)) [] :: chainEvents p (composeKey pre k) c

/-- The field list of the struct type a chain describes (each level has
exactly one field). -/
def chainFields : Chain → List (FieldMeta × GoTy)
  | .last k => [(chainMeta k, .tstr)]
  | .spLast k => [(chainMeta k, .tstruct true [])]
  | .nest k c => [(chainMeta k, chainTy c)]

/-- A parser whose transform is the identity and whose value source
always falls back to the default. -/
def idParser : Parser := { buildKey := id, get := fun _ d => d }

/-- A parser whose value source resolves every key to the same string. -/
def constParser (val : GS) : Parser := { buildKey := id, get := fun _ _ => val }

/-- A parser with the default key transform and a finite key/value table
as value source (the model of a populated environment). -/
def lookupParser (table : List (GS × GS)) : Parser :=
  { buildKey := DefaultKeyFunc,
    get := fun k d =>
      match table.find? (fun e => e.1 == k) with
      | some e => e.2
      | none => d }

/-- Concrete collaborators for the runs below: `time.Parse` fails — the
runs below only ever hand it the empty string, which matches none of the
(nonempty) layouts of `timeFormats`; duration/URL/float parsing is never
reached with a value these runs care about; the `ParseEnv` implementation
is the trivial one (no mutation, no error). -/
def failExternals : Externals :=
  { timeParse := fun _ _ => none
    durParse := fun _ => none
    urlParse := fun _ => none
    floatParse := fun _ => none
    parseEnvImpl := fun _ v => (v, none) }

/-- Field metadata of an untagged `When time.Time` field. -/
def mWhen : FieldMeta := { name := "When".data, tag := none, exported := true }

/-- A config struct with a single untagged `time.Time` field. -/
def timeCfgTy : GoTy := .tstruct false [(mWhen, .ttime)]

/-- Field metadata for a struct field tagged `S`. -/
def mS : FieldMeta := { name := "S".data, tag := some ("S".data), exported := true }

/-- Field metadata for a string field tagged `G`. -/
def mG : FieldMeta := { name := "G".data, tag := some ("G".data), exported := true }

/-- A two-level config: a struct field `S` holding a string field `G`. -/
def nestedCfgTy : GoTy :=
  .tstruct false [(mS, .tstruct false [(mG, .tstr)])]

/-- Field metadata for int fields tagged `A`, `B`, `C`. -/
def mA : FieldMeta := { name := "A".data, tag := some ("A".data), exported := true }

/-- Field metadata, tag `B`. -/
def mB : FieldMeta := { name := "B".data, tag := some ("B".data), exported := true }

/-- Field metadata, tag `C`. -/
def mC : FieldMeta := { name := "C".data, tag := some ("C".data), exported := true }

/-- Field metadata of a field tagged with the skip sentinel `-`. -/
def mDash : FieldMeta := { name := "N".data, tag := some ("-".data), exported := true }

/-! ### Unfolding interface for the walker -/

set_option maxHeartbeats 1600000 in
/-- `ParseValue` on a string field assigns the resolved string as-is. -/
@[simp]
theorem PV_str (p : Parser) (ext : Externals) (v : GoVal) (s pre key : GS) :
    ParseValue p ext .tstr v s pre key = (.vstr s, [], none) := by
  rw [ParseValue.eq_def]

/-- `ParseValue` on a `time.Time` field uses `parseTime`. -/
@[simp]
theorem PV_time (p : Parser) (ext : Externals) (v : GoVal) (s pre key : GS) :
    ParseValue p ext .ttime v s pre key =
      match parseTime ext s with
      | .ok t => (.vtime (some t), [], none)
      | .error e => (v, [], some e) := by
  rw [ParseValue.eq_def]

/-- `ParseValue` on a `*url.URL` field uses `url.Parse`. -/
@[simp]
theorem PV_url (p : Parser) (ext : Externals) (v : GoVal) (s pre key : GS) :
    ParseValue p ext .turl v s pre key =
      match ext.urlParse s with
      | some u => (.vurl (some u), [], none)
      | none => (v, [], some (urlErr s)) := by
  rw [ParseValue.eq_def]

/-- `ParseValue` on a `time.Duration` field uses `time.ParseDuration`. -/
@[simp]
theorem PV_dur (p : Parser) (ext : Externals) (v : GoVal) (s pre key : GS) :
    ParseValue p ext .tdur v s pre key =
      match ext.durParse s with
      | some d => (.vdur d, [], none)
      | none => (v, [], some (durationErr s)) := by
  rw [ParseValue.eq_def]

/-- `ParseValue` on a signed integer field: `strconv.ParseInt(s, 10, 64)`
then `SetInt` (two's-complement truncation to the field width). -/
@[simp]
theorem PV_int (p : Parser) (ext : Externals) (w : Nat) (v : GoVal) (s pre key : GS) :
    ParseValue p ext (.tint w) v s pre key =
      match goParseInt64 s with
      | .ok n => (.vint w (truncInt w n), [], none)
      | .error e => (v, [], some e) := by
  rw [ParseValue.eq_def]

/-- `ParseValue` on an unsigned integer field: `strconv.ParseUint` then
`SetUint`. -/
@[simp]
theorem PV_uint (p : Parser) (ext : Externals) (w : Nat) (v : GoVal) (s pre key : GS) :
    ParseValue p ext (.tuint w) v s pre key =
      match goParseUint64 s with
      | .ok n => (.vuint w (truncUint w n), [], none)
      | .error e => (v, [], some e) := by
  rw [ParseValue.eq_def]

/-- `ParseValue` on a float field. -/
@[simp]
theorem PV_float (p : Parser) (ext : Externals) (v : GoVal) (s pre key : GS) :
    ParseValue p ext .tfloat v s pre key =
      match ext.floatParse s with
      | some f => (.vfloat (some f), [], none)
      | none => (v, [], some (floatErr s)) := by
  rw [ParseValue.eq_def]

/-- `ParseValue` on a bool field. -/
@[simp]
theorem PV_bool (p : Parser) (ext : Externals) (v : GoVal) (s pre key : GS) :
    ParseValue p ext .tbool v s pre key =
      match goParseBool s with
      | .ok b => (.vbool b, [], none)
      | .error e => (v, [], some e) := by
  rw [ParseValue.eq_def]

/-- `ParseValue` on a map field: fresh map, `splitStr`, pair loop. -/
@[simp]
theorem PV_map (p : Parser) (ext : Externals) (kt vt : GoTy) (v : GoVal) (s pre key : GS) :
    ParseValue p ext (.tmap kt vt) v s pre key =
      ((.vmap kt vt (parseMapPairs p ext kt vt (splitStr s) []).1 : GoVal),
       (parseMapPairs p ext kt vt (splitStr s) []).2.1,
       (parseMapPairs p ext kt vt (splitStr s) []).2.2) := by
  rw [ParseValue.eq_def]

/-- `ParseValue` on a slice field: `splitStr`, resize, element loop with
the composed key as prefix. -/
@[simp]
theorem PV_slice (p : Parser) (ext : Externals) (et : GoTy) (v : GoVal) (s pre key : GS) :
    ParseValue p ext (.tslice et) v s pre key =
      ((.vslice et (parseArrayElems p ext et key (splitStr s)
          (resizeList et (splitStr s).length (sliceElems v))).1 : GoVal),
       (parseArrayElems p ext et key (splitStr s)
          (resizeList et (splitStr s).length (sliceElems v))).2.1,
       (parseArrayElems p ext et key (splitStr s)
          (resizeList et (splitStr s).length (sliceElems v))).2.2) := by
  rw [ParseValue.eq_def]

/-- `ParseValue` on a struct whose pointer type implements `EnvParser`:
`ParseEnv` is called with the (untransformed) composed key and its result
is propagated verbatim. -/
@[simp]
theorem PV_structSp (p : Parser) (ext : Externals) (fs : List (FieldMeta × GoTy))
    (v : GoVal) (s pre key : GS) :
    ParseValue p ext (.tstruct true fs) v s pre key =
      ((ext.parseEnvImpl key v).1, [.penv key], (ext.parseEnvImpl key v).2) := by
  rw [ParseValue.eq_def]; simp

/-- `ParseValue` on the empty struct type: no-op. -/
@[simp]
theorem PV_structEmpty (p : Parser) (ext : Externals) (v : GoVal) (s pre key : GS) :
    ParseValue p ext (.tstruct false []) v s pre key = (v, [], none) := by
  rw [ParseValue.eq_def]; simp

/-- `ParseValue` on a plain struct field recurses: `ParseStruct` is called
with the composed key as the new prefix. -/
@[simp]
theorem PV_struct (p : Parser) (ext : Externals) (f : FieldMeta × GoTy)
    (fs : List (FieldMeta × GoTy)) (vs : List GoVal) (s pre key : GS) :
    ParseValue p ext (.tstruct false (f :: fs)) (.vstruct vs) s pre key =
      ((.vstruct (parseStructFields p ext key (f :: fs) vs).1 : GoVal),
       (parseStructFields p ext key (f :: fs) vs).2.1,
       (parseStructFields p ext key (f :: fs) vs).2.2) := by
  rw [ParseValue.eq_def]; simp [structFieldsOf]

/-- `ParseValue` on a pointer type other than `*url.URL` (including a
pointer to a struct): no case matches, the value is untouched and no
error is returned. -/
@[simp]
theorem PV_ptr (p : Parser) (ext : Externals) (t : GoTy) (v : GoVal) (s pre key : GS) :
    ParseValue p ext (.tptr t) v s pre key = (v, [], none) := by
  rw [ParseValue.eq_def]

/-- `ParseValue` on a channel: untouched, no error. -/
@[simp]
theorem PV_chan (p : Parser) (ext : Externals) (v : GoVal) (s pre key : GS) :
    ParseValue p ext .tchan v s pre key = (v, [], none) := by
  rw [ParseValue.eq_def]

/-- `ParseValue` on an interface: untouched, no error. -/
@[simp]
theorem PV_iface (p : Parser) (ext : Externals) (v : GoVal) (s pre key : GS) :
    ParseValue p ext .tiface v s pre key = (v, [], none) := by
  rw [ParseValue.eq_def]

/-- `ParseValue` on a complex number: untouched, no error. -/
@[simp]
theorem PV_complex (p : Parser) (ext : Externals) (v : GoVal) (s pre key : GS) :
    ParseValue p ext .tcomplex v s pre key = (v, [], none) := by
  rw [ParseValue.eq_def]

/-- `ParseValue` on a function field: silently ignored (struct.go:148). -/
@[simp]
theorem PV_func (p : Parser) (ext : Externals) (v : GoVal) (s pre key : GS) :
    ParseValue p ext .tfunc v s pre key = (v, [], none) := by
  rw [ParseValue.eq_def]

/-- Full unfolding of one field iteration of the `ParseStruct` loop. -/
@[simp]
theorem parseField_unfold (p : Parser) (ext : Externals) (pre : GS)
    (meta : FieldMeta) (ty : GoTy) (v : GoVal) :
    parseField p ext pre meta ty v =
      if meta.exported then
        let kd := parseStructTags (fieldTagVal meta)
        let key := composeKey pre kd.1
        let strValues := p.get (p.buildKey key) kd.2
        if strValues = [] ∧ kindOf ty ≠ .kstruct then
          (v, [.get (p.buildKey key) kd.2], none)
        else
          let r := ParseValue p ext ty v strValues pre key
          (r.1, .get (p.buildKey key) kd.2 :: r.2.1, r.2.2)
      else
        (v, [], none) := by
  rw [parseField.eq_def]

/-- An unexported field is skipped without any lookup. -/
theorem parseField_not_exported (p : Parser) (ext : Externals) (pre : GS)
    (meta : FieldMeta) (ty : GoTy) (v : GoVal) (h : meta.exported = false) :
    parseField p ext pre meta ty v = (v, [], none) := by
  rw [parseField_unfold, h]; simp

/-- An exported field whose resolved string is empty and whose kind is
not struct is skipped, after its single `Get` call. -/
theorem parseField_skip (p : Parser) (ext : Externals) (pre : GS)
    (meta : FieldMeta) (ty : GoTy) (v : GoVal)
    (hexp : meta.exported = true)
    (hkind : kindOf ty ≠ .kstruct)
    (hget : p.get (p.buildKey (composeKey pre (parseStructTags (fieldTagVal meta)).1))
        (parseStructTags (fieldTagVal meta)).2 = []) :
    parseField p ext pre meta ty v =
      (v, [.get (p.buildKey (composeKey pre (parseStructTags (fieldTagVal meta)).1))
          (parseStructTags (fieldTagVal meta)).2], none) := by
  rw [parseField_unfold, hexp]
  simp only [if_true]
  rw [if_pos ⟨hget, hkind⟩]

/-- An exported field that is not skipped dispatches to `ParseValue`. -/
theorem parseField_go (p : Parser) (ext : Externals) (pre : GS)
    (meta : FieldMeta) (ty : GoTy) (v : GoVal)
    (hexp : meta.exported = true)
    (h : ¬(p.get (p.buildKey (composeKey pre (parseStructTags (fieldTagVal meta)).1))
        (parseStructTags (fieldTagVal meta)).2 = [] ∧ kindOf ty ≠ .kstruct)) :
    parseField p ext pre meta ty v =
      ((ParseValue p ext ty v
          (p.get (p.buildKey (composeKey pre (parseStructTags (fieldTagVal meta)).1))
            (parseStructTags (fieldTagVal meta)).2) pre
          (composeKey pre (parseStructTags (fieldTagVal meta)).1)).1,
       .get (p.buildKey (composeKey pre (parseStructTags (fieldTagVal meta)).1))
          (parseStructTags (fieldTagVal meta)).2 ::
        (ParseValue p ext ty v
          (p.get (p.buildKey (composeKey pre (parseStructTags (fieldTagVal meta)).1))
            (parseStructTags (fieldTagVal meta)).2) pre
          (composeKey pre (parseStructTags (fieldTagVal meta)).1)).2.1,
       (ParseValue p ext ty v
          (p.get (p.buildKey (composeKey pre (parseStructTags (fieldTagVal meta)).1))
            (parseStructTags (fieldTagVal meta)).2) pre
          (composeKey pre (parseStructTags (fieldTagVal meta)).1)).2.2) := by
  rw [parseField_unfold, hexp]
  simp only [if_true]
  rw [if_neg h]

/-- The field loop on an empty field list leaves the values untouched. -/
@[simp]
theorem PSF_nil (p : Parser) (ext : Externals) (pre : GS) (vs : List GoVal) :
    parseStructFields p ext pre [] vs = (vs, [], none) := by
  rw [parseStructFields.eq_def]

/-- The field loop with no remaining values (never reached on well-formed
input). -/
@[simp]
theorem PSF_out (p : Parser) (ext : Externals) (pre : GS)
    (f : FieldMeta × GoTy) (fs : List (FieldMeta × GoTy)) :
    parseStructFields p ext pre (f :: fs) [] = ([], [], none) := by
  rw [parseStructFields.eq_def]

/-- Full unfolding of one step of the field loop. -/
@[simp]
theorem PSF_cons (p : Parser) (ext : Externals) (pre : GS) (meta : FieldMeta)
    (fty : GoTy) (fs : List (FieldMeta × GoTy)) (v : GoVal) (vs : List GoVal) :
    parseStructFields p ext pre ((meta, fty) :: fs) (v :: vs) =
      (match (parseField p ext pre meta fty v).2.2 with
       | some e =>
         ((parseField p ext pre meta fty v).1 :: vs,
          (parseField p ext pre meta fty v).2.1, some e)
       | none =>
         ((parseField p ext pre meta fty v).1 :: (parseStructFields p ext pre fs vs).1,
          (parseField p ext pre meta fty v).2.1 ++ (parseStructFields p ext pre fs vs).2.1,
          (parseStructFields p ext pre fs vs).2.2)) := by
  rw [parseStructFields.eq_def]

/-- A field-loop step whose field errors: the error is returned at once,
the failing field keeps whatever `ParseValue` wrote, later fields keep
their old values. -/
theorem PSF_cons_err (p : Parser) (ext : Externals) (pre : GS) (meta : FieldMeta)
    (fty : GoTy) (fs : List (FieldMeta × GoTy)) (v : GoVal) (vs : List GoVal)
    (v' : GoVal) (tr : List Ev) (e : GS)
    (h : parseField p ext pre meta fty v = (v', tr, some e)) :
    parseStructFields p ext pre ((meta, fty) :: fs) (v :: vs) =
      (v' :: vs, tr, some e) := by
  rw [PSF_cons, h]

/-- A field-loop step whose field succeeds: the loop continues. -/
theorem PSF_cons_ok (p : Parser) (ext : Externals) (pre : GS) (meta : FieldMeta)
    (fty : GoTy) (fs : List (FieldMeta × GoTy)) (v : GoVal) (vs : List GoVal)
    (v' : GoVal) (tr : List Ev)
    (h : parseField p ext pre meta fty v = (v', tr, none)) :
    parseStructFields p ext pre ((meta, fty) :: fs) (v :: vs) =
      (v' :: (parseStructFields p ext pre fs vs).1,
       tr ++ (parseStructFields p ext pre fs vs).2.1,
       (parseStructFields p ext pre fs vs).2.2) := by
  rw [PSF_cons, h]

/-- The map pair loop on no tokens. -/
@[simp]
theorem PMP_nil (p : Parser) (ext : Externals) (kt vt : GoTy)
    (entries : List (GoVal × GoVal)) :
    parseMapPairs p ext kt vt [] entries = (entries, [], none) := by
  rw [parseMapPairs.eq_def]

/-- Full unfolding of one step of the map pair loop. -/
@[simp]
theorem PMP_cons (p : Parser) (ext : Externals) (kt vt : GoTy) (pair : GS)
    (pairs : List GS) (entries : List (GoVal × GoVal)) :
    parseMapPairs p ext kt vt (pair :: pairs) entries =
      (match splitChar ':' pair with
       | k0 :: v0 :: _ =>
         match (ParseValue p ext kt (zeroVal kt) (goTrimSpace k0) [] []).2.2 with
         | some _ =>
           (entries, (ParseValue p ext kt (zeroVal kt) (goTrimSpace k0) [] []).2.1,
            some (mapElemParseErr (goTrimSpace k0) kt))
         | none =>
           match (ParseValue p ext vt (zeroVal vt) (goTrimSpace v0) [] []).2.2 with
           | some _ =>
             (entries,
              (ParseValue p ext kt (zeroVal kt) (goTrimSpace k0) [] []).2.1 ++
                (ParseValue p ext vt (zeroVal vt) (goTrimSpace v0) [] []).2.1,
              some (mapElemParseErr (goTrimSpace v0) vt))
           | none =>
             ((parseMapPairs p ext kt vt pairs
                (setMapIndex entries
                  (ParseValue p ext kt (zeroVal kt) (goTrimSpace k0) [] []).1
                  (ParseValue p ext vt (zeroVal vt) (goTrimSpace v0) [] []).1)).1,
              (ParseValue p ext kt (zeroVal kt) (goTrimSpace k0) [] []).2.1 ++
                (ParseValue p ext vt (zeroVal vt) (goTrimSpace v0) [] []).2.1 ++
                (parseMapPairs p ext kt vt pairs
                  (setMapIndex entries
                    (ParseValue p ext kt (zeroVal kt) (goTrimSpace k0) [] []).1
                    (ParseValue p ext vt (zeroVal vt) (goTrimSpace v0) [] []).1)).2.1,
              (parseMapPairs p ext kt vt pairs
                (setMapIndex entries
                  (ParseValue p ext kt (zeroVal kt) (goTrimSpace k0) [] []).1
                  (ParseValue p ext vt (zeroVal vt) (goTrimSpace v0) [] []).1)).2.2)
       | [x] => (entries, [], some (mapPairFormatErr pair))
       | [] => (entries, [], some (mapPairFormatErr pair))) := by
  rw [parseMapPairs.eq_def]

/-- The element loop of `parseArray` on no splits. -/
@[simp]
theorem PAE_nil (p : Parser) (ext : Externals) (et : GoTy) (curKey : GS)
    (vs : List GoVal) :
    parseArrayElems p ext et curKey [] vs = (vs, [], none) := by
  rw [parseArrayElems.eq_def]

/-- The element loop with no remaining slots. -/
@[simp]
theorem PAE_out (p : Parser) (ext : Externals) (et : GoTy) (curKey : GS)
    (s : GS) (ss : List GS) :
    parseArrayElems p ext et curKey (s :: ss) [] = ([], [], none) := by
  rw [parseArrayElems.eq_def]

/-- Full unfolding of one step of the element loop. -/
@[simp]
theorem PAE_cons (p : Parser) (ext : Externals) (et : GoTy) (curKey : GS)
    (s : GS) (ss : List GS) (v : GoVal) (vs : List GoVal) :
    parseArrayElems p ext et curKey (s :: ss) (v :: vs) =
      (match (ParseValue p ext et v (goTrimSpace s) curKey []).2.2 with
       | some e =>
         ((ParseValue p ext et v (goTrimSpace s) curKey []).1 :: vs,
          (ParseValue p ext et v (goTrimSpace s) curKey []).2.1, some e)
       | none =>
         ((ParseValue p ext et v (goTrimSpace s) curKey []).1 ::
            (parseArrayElems p ext et curKey ss vs).1,
          (ParseValue p ext et v (goTrimSpace s) curKey []).2.1 ++
            (parseArrayElems p ext et curKey ss vs).2.1,
          (parseArrayElems p ext et curKey ss vs).2.2)) := by
  rw [parseArrayElems.eq_def]

/-! ### String lemmas -/

/-- `strings.Split` never returns an empty slice. -/
theorem splitChar_ne_nil (sep : Char) (s : GS) : splitChar sep s ≠ [] := by
  induction s with
  | nil => simp [splitChar]
  | cons c rest ih =>
    rw [splitChar]
    by_cases h : c = sep
    · simp [h]
    · simp only [if_neg h]
      cases hs : splitChar sep rest with
      | nil => simp
      | cons t ts => simp

/-- Splitting on a character that does not occur returns the whole
string as the single piece. -/
theorem splitChar_not_mem {sep : Char} {s : GS} (h : sep ∉ s) :
    splitChar sep s = [s] := by
  induction s with
  | nil => rfl
  | cons c rest ih =>
    rw [splitChar]
    have hc : ¬c = sep := fun hh => h (hh ▸ List.mem_cons_self c rest)
    rw [if_neg hc, ih (fun hm => h (List.mem_cons_of_mem c hm))]

/-- Splitting at the first occurrence: the part before the separator
becomes the head. -/
theorem splitChar_append {sep : Char} {a : GS} (b : GS) (h : sep ∉ a) :
    splitChar sep (a ++ sep :: b) = a :: splitChar sep b := by
  induction a with
  | nil => simp [splitChar]
  | cons c rest ih =>
    have hc : ¬c = sep := fun hh => h (hh ▸ List.mem_cons_self c rest)
    have ih' := ih (fun hm => h (List.mem_cons_of_mem c hm))
    rw [List.cons_append, splitChar, if_neg hc, ih']

/-- `strings.Split` is a left inverse of `strings.Join` when no piece
contains the separator. -/
theorem splitChar_join {sep : Char} {segs : List GS}
    (h : ∀ x ∈ segs, sep ∉ x) (hne : segs ≠ []) :
    splitChar sep (joinChar sep segs) = segs := by
  induction segs with
  | nil => exact absurd rfl hne
  | cons x rest ih =>
    cases rest with
    | nil => exact splitChar_not_mem (h x (List.mem_cons_self x []))
    | cons y rest' =>
      rw [joinChar, splitChar_append _ (h x (List.mem_cons_self x _))]
      rw [ih (fun z hz => h z (List.mem_cons_of_mem x hz)) (List.cons_ne_nil y rest')]
      simp

/-- When the separator occurs, the head of the split is strictly shorter
than the string. -/
theorem splitChar_head_length {sep : Char} {s : GS} (h : sep ∈ s) :
    ((splitChar sep s).headD []).length < s.length := by
  induction s with
  | nil => cases h
  | cons c rest ih =>
    rw [splitChar]
    by_cases hc : c = sep
    · simp [hc]
    · have hm : sep ∈ rest := by
        cases List.mem_cons.mp h with
        | inl hh => exact absurd hh.symm hc
        | inr hh => exact hh
      cases hs : splitChar sep rest with
      | nil => exact absurd hs (splitChar_ne_nil sep rest)
      | cons t ts =>
        have := ih hm
        rw [hs] at this
        simp only [List.headD_cons] at this
        simp [if_neg hc, hs]
        omega

/-- The `split[0] != value` test of `splitStr` detects exactly whether
the separator occurs. -/
theorem splitChar_headD_ne_iff (sep : Char) (s : GS) :
    (splitChar sep s).headD [] ≠ s ↔ sep ∈ s := by
  constructor
  · intro hne
    by_contra hmem
    exact hne (by rw [splitChar_not_mem hmem]; rfl)
  · intro hmem
    have := splitChar_head_length hmem
    intro heq
    rw [heq] at this
    omega

/-- `hasChar` agrees with membership. -/
theorem hasChar_iff (c : Char) (s : GS) : hasChar c s = true ↔ c ∈ s := by
  simp [hasChar, List.any_eq_true]

/-- Unfolding of `removeAll` on the empty string. -/
@[simp]
theorem removeAll_nil (pat : GS) : removeAll pat [] = [] := by
  rw [removeAll.eq_def]

/-- Unfolding of `removeAll` on a nonempty string. -/
@[simp]
theorem removeAll_cons (pat : GS) (c : Char) (rest : GS) :
    removeAll pat (c :: rest) =
      if pat ≠ [] ∧ pat.isPrefixOf (c :: rest) then
        removeAll pat (List.drop pat.length (c :: rest))
      else
        c :: removeAll pat rest := by
  rw [removeAll.eq_def]

/-- `removeAll` removes a leading occurrence of the pattern. -/
theorem removeAll_prepend {pat : GS} (hp : pat ≠ []) (t : GS) :
    removeAll pat (pat ++ t) = removeAll pat t := by
  cases pat with
  | nil => exact absurd rfl hp
  | cons c cs =>
    rw [List.cons_append, removeAll_cons]
    have hpre : (c :: cs).isPrefixOf ((c :: cs) ++ t) :=
      List.isPrefixOf_iff_prefix.mpr (List.prefix_append _ _)
    rw [if_pos ⟨hp, by rw [List.cons_append] at hpre; exact hpre⟩]
    have : List.drop (c :: cs).length ((c :: cs) ++ t) = t := List.drop_left _ _
    rw [List.cons_append] at this
    rw [this]

/-- `removeAll` is the identity when the pattern never occurs. -/
theorem removeAll_of_not_contains {pat : GS} {s : GS}
    (h : containsSeq pat s = false) : removeAll pat s = s := by
  induction s with
  | nil => simp
  | cons c rest ih =>
    rw [containsSeq] at h
    rw [Bool.or_eq_false_iff] at h
    rw [removeAll_cons, if_neg (by simp [h.1]), ih h.2]

/-- Composition with the empty prefix is the identity. -/
theorem composeKey_nil_left (k : GS) : composeKey [] k = k := by
  simp [composeKey]

/-- Composition with a nonempty prefix is dotted concatenation. -/
theorem composeKey_of_ne {P : GS} (h : P ≠ []) (k : GS) :
    composeKey P k = P ++ '.' :: k := by
  simp [composeKey, h]

/-- A composed key under a nonempty prefix is nonempty. -/
theorem composeKey_ne_nil {P : GS} (h : P ≠ []) (k : GS) :
    composeKey P k ≠ [] := by
  rw [composeKey_of_ne h]
  simp

/-- Key composition is associative over nesting levels. -/
theorem composeKey_assoc {P : GS} (h : P ≠ []) (S F : GS) :
    composeKey (composeKey P S) F = composeKey P (S ++ '.' :: F) := by
  rw [composeKey_of_ne h, composeKey_of_ne (by simp [composeKey_of_ne h]), composeKey_of_ne h]
  simp


/-- One step of the `splitStr` loop, phrased through occurrence. -/
theorem splitStrLoop_step (s : GS) (sep : Char) (seps : List Char) (last : List GS) :
    splitStrLoop s (sep :: seps) last =
      if sep ∈ s then splitChar sep s else splitStrLoop s seps (splitChar sep s) := by
  rw [splitStrLoop]
  by_cases h : sep ∈ s
  · rw [if_pos ((splitChar_headD_ne_iff sep s).mpr h), if_pos h]
  · rw [if_neg (fun hne => h ((splitChar_headD_ne_iff sep s).mp hne)), if_neg h]

/-- The loop with no separators left returns the carried split. -/
theorem splitStrLoop_nil (s : GS) (last : List GS) :
    splitStrLoop s [] last = last := by
  rw [splitStrLoop]

/-- `splitStr` agrees with the spec-side priority search (the duplicated
semicolon in the source list is redundant). -/
theorem splitStr_eq_spec (s : GS) : splitStr s = splitStrSpec s := by
  rw [splitStr, stringSeparators, splitStrSpec, splitSpecOrder]
  simp only [splitStrLoop_step, splitStrLoop_nil]
  by_cases h1 : ',' ∈ s
  · have c1 : hasChar ',' s = true := (hasChar_iff ',' s).mpr h1
    simp [List.find?, h1, c1]
  have c1 : ¬hasChar ',' s = true := fun hh => h1 ((hasChar_iff ',' s).mp hh)
  by_cases h2 : ';' ∈ s
  · have c2 : hasChar ';' s = true := (hasChar_iff ';' s).mpr h2
    simp [List.find?, h1, h2, c1, c2]
  have c2 : ¬hasChar ';' s = true := fun hh => h2 ((hasChar_iff ';' s).mp hh)
  by_cases h3 : '-' ∈ s
  · have c3 : hasChar '-' s = true := (hasChar_iff '-' s).mpr h3
    simp [List.find?, h1, h2, h3, c1, c2, c3]
  have c3 : ¬hasChar '-' s = true := fun hh => h3 ((hasChar_iff '-' s).mp hh)
  by_cases h4 : ' ' ∈ s
  · have c4 : hasChar ' ' s = true := (hasChar_iff ' ' s).mpr h4
    simp [List.find?, h1, h2, h3, h4, c1, c2, c3, c4]
  have c4 : ¬hasChar ' ' s = true := fun hh => h4 ((hasChar_iff ' ' s).mp hh)
  simp [List.find?, h1, h2, h3, h4, c1, c2, c3, c4, splitChar_not_mem h4]

/-! ### Claim C9 -/

/-- C9: map and sequence coercion split the raw string by trying the
separators in the fixed priority order comma, semicolon, hyphen, space
and stopping at the first one that actually splits the string; when no
separator occurs the result degenerates to the one-element list holding
the whole string (never an error), so a single value coerces to a
single-element slice or a single map pair. -/
theorem C9_split_separator_priority :
    (∀ s : GS, splitStr s = splitStrSpec s) ∧
    (∀ s : GS, splitStr s ≠ []) ∧
    (∀ s : GS, (∀ c ∈ splitSpecOrder, c ∉ s) → splitStr s = [s]) ∧
    (∀ (p : Parser) (ext : Externals) (old : List GoVal) (s pre key : GS),
      (∀ c ∈ splitSpecOrder, c ∉ s) →
      ParseValue p ext (.tslice .tstr) (.vslice .tstr old) s pre key =
        (.vslice .tstr [.vstr (goTrimSpace s)], [], none)) ∧
    (∀ (p : Parser) (ext : Externals) (old : List (GoVal × GoVal))
      (s pre key k0 v0 : GS) (rest : List GS),
      (∀ c ∈ splitSpecOrder, c ∉ s) →
      splitChar ':' s = k0 :: v0 :: rest →
      ParseValue p ext (.tmap .tstr .tstr) (.vmap .tstr .tstr old) s pre key =
        (.vmap .tstr .tstr [(.vstr (goTrimSpace k0), .vstr (goTrimSpace v0))],
         [], none)) := by
  have hsingle : ∀ s : GS, (∀ c ∈ splitSpecOrder, c ∉ s) → splitStr s = [s] := by
    intro s h
    rw [splitStr_eq_spec, splitStrSpec]
    rw [List.find?_eq_none.mpr (fun c hc => by
      simp only [Bool.not_eq_true]
      cases hb : hasChar c s with
      | false => rfl
      | true => exact absurd ((hasChar_iff c s).mp hb) (h c hc))]
  refine ⟨splitStr_eq_spec, ?_, hsingle, ?_, ?_⟩
  · intro s
    rw [splitStr_eq_spec, splitStrSpec]
    cases hf : List.find? (fun c => hasChar c s) splitSpecOrder with
    | none => simp
    | some c => simpa using splitChar_ne_nil c s
  · intro p ext old s pre key h
    rw [PV_slice, hsingle s h]
    cases old with
    | nil => simp [resizeList, sliceElems, zeroVal]
    | cons o os => simp [resizeList, sliceElems]
  · intro p ext old s pre key k0 v0 rest h hsplit
    rw [PV_map, hsingle s h]
    rw [PMP_cons, hsplit]
    simp [zeroVal, setMapIndex]

/-- Witness for C9 at concrete inputs: `"1:hello"` has no separator, so
sequence coercion gives a one-element slice and map coercion a single
pair. -/
theorem C9_split_separator_priority_witness :
    (∀ c ∈ splitSpecOrder, c ∉ "1:hello".data) ∧
    splitStr "1:hello".data = ["1:hello".data] ∧
    ParseValue idParser failExternals (.tslice .tstr) (.vslice .tstr [])
        "1:hello".data [] [] =
      (.vslice .tstr [.vstr "1:hello".data], [], none) ∧
    ParseValue idParser failExternals (.tmap .tstr .tstr) (.vmap .tstr .tstr [])
        "1:hello".data [] [] =
      (.vmap .tstr .tstr [(.vstr "1".data, .vstr "hello".data)], [], none) := by
  refine ⟨by decide, ?_, ?_, ?_⟩
  · exact C9_split_separator_priority.2.2.1 _ (by decide)
  · have h := C9_split_separator_priority.2.2.2.1 idParser failExternals []
      "1:hello".data [] [] (by decide)
    rw [h]
    have : goTrimSpace "1:hello".data = "1:hello".data := by decide
    rw [this]
  · have h := C9_split_separator_priority.2.2.2.2 idParser failExternals []
      "1:hello".data [] [] "1".data "hello".data [] (by decide) (by decide)
    rw [h]
    have h1 : goTrimSpace "1".data = "1".data := by decide
    have h2 : goTrimSpace "hello".data = "hello".data := by decide
    rw [h1, h2]

/-! ### Claim C3 -/

/-- Prepending a string to the first segment of a join. -/
theorem append_joinChar (sep : Char) (a x : GS) (rs : List GS) :
    a ++ joinChar sep (x :: rs) = joinChar sep ((a ++ x) :: rs) := by
  cases rs with
  | nil => rfl
  | cons y r => simp [joinChar, List.append_assoc]

/-- C3 counterexample: in `"KEY,default=V"` with `V = "default=a,b"`
(a default that contains commas), the parsed default is `"a,b"`, not `V`:
`strings.ReplaceAll` removes every occurrence of `"default="` from the
first comma-segment of the default. -/
theorem C3_comma_default_counterexample :
    parseStructTags ("MAP,default=default=a,b".data) = ("MAP".data, "a,b".data) ∧
    ("a,b".data : GS) ≠ "default=a,b".data := by
  refine ⟨?_, by decide⟩
  have hstep : parseStructTags ("MAP,default=default=a,b".data) =
      ("MAP".data,
       joinChar ',' (removeAll defaultMarker ("default=default=a".data) :: ["b".data])) := rfl
  rw [hstep]
  have e1 : ("default=default=a".data : GS) = defaultMarker ++ "default=a".data := by decide
  have e2 : ("default=a".data : GS) = defaultMarker ++ "a".data := by decide
  rw [e1, removeAll_prepend (by decide), e2, removeAll_prepend (by decide),
    removeAll_of_not_contains (by decide)]
  decide

/-- C3 amended: for `"KEY,default=V"` where `V` contains commas, the key
is `KEY` and the default is `V` with every occurrence of `"default="`
removed from `V`'s first comma-segment; in particular the default equals
`V` exactly (internal commas preserved) whenever that first segment does
not itself contain the marker. -/
theorem C3_comma_default_rejoin (key v0 : GS) (restSegs : List GS)
    (hkey : ',' ∉ key) (hv0 : ',' ∉ v0) (hne : restSegs ≠ [])
    (hrest : ∀ x ∈ restSegs, ',' ∉ x)
    (htrim : goTrimSpace (key ++ ",default=".data ++ joinChar ',' (v0 :: restSegs)) =
      key ++ ",default=".data ++ joinChar ',' (v0 :: restSegs)) :
    parseStructTags (key ++ ",default=".data ++ joinChar ',' (v0 :: restSegs)) =
      (key, joinChar ',' (removeAll defaultMarker v0 :: restSegs)) ∧
    (containsSeq defaultMarker v0 = false →
      parseStructTags (key ++ ",default=".data ++ joinChar ',' (v0 :: restSegs)) =
        (key, joinChar ',' (v0 :: restSegs))) := by
  have htag : key ++ ",default=".data ++ joinChar ',' (v0 :: restSegs) =
      key ++ ',' :: joinChar ',' ((defaultMarker ++ v0) :: restSegs) := by
    rw [← append_joinChar]
    have : (",default=".data : GS) = ',' :: defaultMarker := by decide
    rw [this]
    simp
  have hmem : ',' ∈ key ++ ",default=".data ++ joinChar ',' (v0 :: restSegs) := by
    rw [htag]
    exact List.mem_append_right key (List.mem_cons_self ',' _)
  have hseg : ∀ x ∈ (defaultMarker ++ v0) :: restSegs, ',' ∉ x := by
    intro x hx
    cases List.mem_cons.mp hx with
    | inl h =>
      subst h
      intro hcm
      cases List.mem_append.mp hcm with
      | inl h2 => revert h2; decide
      | inr h2 => exact hv0 h2
    | inr h => exact hrest x h
  have hparts : splitChar ',' (key ++ ",default=".data ++ joinChar ',' (v0 :: restSegs)) =
      key :: (defaultMarker ++ v0) :: restSegs := by
    rw [htag, splitChar_append _ hkey]
    rw [splitChar_join hseg (by simp)]
  have main : parseStructTags (key ++ ",default=".data ++ joinChar ',' (v0 :: restSegs)) =
      (key, joinChar ',' (removeAll defaultMarker v0 :: restSegs)) := by
    rw [parseStructTags]
    rw [htrim]
    rw [if_neg ?hni]
    case hni =>
      rintro (he | he)
      · rw [he] at hmem; revert hmem; decide
      · rw [he] at hmem; cases hmem
    rw [hparts]
    have hlen : (key :: (defaultMarker ++ v0) :: restSegs).length = 2 + restSegs.length := by
      simp; omega
    have hlt : ¬((key :: (defaultMarker ++ v0) :: restSegs).length < 2) := by
      rw [hlen]; omega
    rw [if_neg hlt]
    have hgt : (key :: (defaultMarker ++ v0) :: restSegs).length > 2 := by
      rw [hlen]
      have : restSegs.length ≠ 0 := fun hh => hne (List.eq_nil_of_length_eq_zero hh)
      omega
    show (key, if (key :: (defaultMarker ++ v0) :: restSegs).length > 2 then
        joinChar ',' (removeAll defaultMarker (defaultMarker ++ v0) :: restSegs)
      else removeAll defaultMarker (defaultMarker ++ v0)) =
      (key, joinChar ',' (removeAll defaultMarker v0 :: restSegs))
    rw [if_pos hgt, removeAll_prepend (by decide)]
  refine ⟨main, fun hnc => ?_⟩
  rw [main, removeAll_of_not_contains hnc]

/-- Witness for C3 amended: `"MAP,default=a:1,b:2"` parses to key `MAP`
and default `a:1,b:2` exactly. -/
theorem C3_comma_default_rejoin_witness :
    parseStructTags ("MAP,default=a:1,b:2".data) = ("MAP".data, "a:1,b:2".data) := by
  have h := C3_comma_default_rejoin ("MAP".data) ("a:1".data) ["b:2".data]
    (by decide) (by decide) (by decide) (by decide) (by decide)
  have h2 := h.2 (by decide)
  have e1 : ("MAP".data : GS) ++ ",default=".data ++ joinChar ',' ("a:1".data :: ["b:2".data]) =
      "MAP,default=a:1,b:2".data := by decide
  have e2 : joinChar ',' ("a:1".data :: ["b:2".data]) = "a:1,b:2".data := by decide
  rw [e1, e2] at h2
  exact h2

/-! ### Claim C5 -/

/-- C5 counterexample: an `int8` field accepts `"300"` — a numeral far
outside the 8-bit range — without any error, and stores `44` (the value
truncated to 8 bits), not `300`: the only range check is the 64-bit one
in `strconv.ParseInt(s, 10, 64)`, and `reflect.Value.SetInt` silently
truncates to the field width. -/
theorem C5_int8_truncation_counterexample :
    ParseValue idParser failExternals (.tint 8) (.vint 8 0) "300".data [] [] =
      (.vint 8 44, [], none) ∧
    (44 : Int) ≠ 300 ∧
    ¬(-(2 ^ 7) ≤ (300 : Int) ∧ (300 : Int) < 2 ^ 7) := by
  refine ⟨?_, by decide, by decide⟩
  rw [PV_int]
  rfl

/-- C5 amended: integer fields of any width parse the resolved string
with `strconv`'s fixed 64-bit syntax and range check — failing on
non-numeric input and on numerals outside the 64-bit range — and store
the parsed value truncated two's-complement to the field's width, which
is the identity exactly on values that fit the width. -/
theorem C5_int64_parse_then_truncate :
    (∀ (p : Parser) (ext : Externals) (w : Nat) (v : GoVal) (s pre key e : GS),
      goParseInt64 s = .error e →
      ParseValue p ext (.tint w) v s pre key = (v, [], some e)) ∧
    (∀ (p : Parser) (ext : Externals) (w : Nat) (v : GoVal) (s pre key : GS) (n : Int),
      goParseInt64 s = .ok n →
      ParseValue p ext (.tint w) v s pre key = (.vint w (truncInt w n), [], none)) ∧
    (∀ (w : Nat) (n : Int), 0 < w → -(2 ^ (w - 1)) ≤ n → n < 2 ^ (w - 1) →
      truncInt w n = n) ∧
    (∀ (p : Parser) (ext : Externals) (w : Nat) (v : GoVal) (s pre key e : GS),
      goParseUint64 s = .error e →
      ParseValue p ext (.tuint w) v s pre key = (v, [], some e)) ∧
    (∀ (p : Parser) (ext : Externals) (w : Nat) (v : GoVal) (s pre key : GS) (n : Nat),
      goParseUint64 s = .ok n →
      ParseValue p ext (.tuint w) v s pre key = (.vuint w (truncUint w n), [], none)) ∧
    (∀ (w n : Nat), n < 2 ^ w → truncUint w n = n) ∧
    (goParseInt64 "12a".data).isOk = false ∧
    (goParseInt64 "9223372036854775808".data).isOk = false ∧
    goParseInt64 "9223372036854775807".data = .ok 9223372036854775807 := by
  refine ⟨?_, ?_, ?_, ?_, ?_, ?_, by decide, by decide, rfl⟩
  · intro p ext w v s pre key e h
    rw [PV_int, h]
  · intro p ext w v s pre key n h
    rw [PV_int, h]
  · intro w n hw hlo hhi
    rw [truncInt]
    have hsplit : (2 : Int) ^ w = 2 ^ (w - 1) * 2 := by
      conv_lhs => rw [show w = w - 1 + 1 by omega]
      rw [pow_succ]
    have hnn : 0 ≤ n + 2 ^ (w - 1) := by omega
    have hlt : n + 2 ^ (w - 1) < 2 ^ w := by omega
    rw [Int.emod_eq_of_lt hnn hlt]
    omega
  · intro p ext w v s pre key e h
    rw [PV_uint, h]
  · intro p ext w v s pre key n h
    rw [PV_uint, h]
  · intro w n h
    rw [truncUint, Nat.mod_eq_of_lt h]

/-- Witness for C5 amended at concrete inputs: `"42"` on an `int8` field
parses, is stored exactly (it fits 8 bits), and the non-numeric and
beyond-64-bit examples fail. -/
theorem C5_int64_parse_then_truncate_witness :
    ParseValue idParser failExternals (.tint 8) (.vint 8 0) "42".data [] [] =
      (.vint 8 (truncInt 8 42), [], none) ∧
    truncInt 8 42 = 42 := by
  exact ⟨C5_int64_parse_then_truncate.2.1 idParser failExternals 8 (.vint 8 0)
      ("42".data) [] [] 42 rfl,
    C5_int64_parse_then_truncate.2.2.1 8 42 (by decide) (by decide) (by decide)⟩

/-! ### Claim C10 -/

/-- C10: every field whose dispatch kind is unhandled — any pointer type
other than `*url.URL` (including a pointer to a struct), channels,
interfaces, complex numbers, and functions — is left completely
unchanged by `ParseValue`, with no error and no collaborator call
(in particular a pointer-to-struct field is never allocated or recursed
into), whatever the resolved string is. -/
theorem C10_unhandled_kinds_untouched (p : Parser) (ext : Externals)
    (v : GoVal) (s pre key : GS) :
    (∀ t : GoTy, ParseValue p ext (.tptr t) v s pre key = (v, [], none)) ∧
    ParseValue p ext .tchan v s pre key = (v, [], none) ∧
    ParseValue p ext .tiface v s pre key = (v, [], none) ∧
    ParseValue p ext .tcomplex v s pre key = (v, [], none) ∧
    ParseValue p ext .tfunc v s pre key = (v, [], none) :=
  ⟨fun t => PV_ptr p ext t v s pre key, PV_chan p ext v s pre key,
   PV_iface p ext v s pre key, PV_complex p ext v s pre key,
   PV_func p ext v s pre key⟩

/-! ### Claim C6 -/

/-- C6: calling `ParseStruct` with a nil (uninitialized) typed pointer
does not auto-allocate and proceed — the `dst.Set(r.New(...))` at
struct.go:94 operates on the unaddressable value `reflect.ValueOf(dest)`
and therefore panics. -/
theorem C6_nil_pointer_panics :
    ParseStruct idParser failExternals (.nilPtr nestedCfgTy) ("APP".data) =
      .panicked setUnaddressableMsg ∧
    (∃ ov tr e, ParseStruct idParser failExternals
        (.ptrTo nestedCfgTy (zeroVal nestedCfgTy)) ("APP".data) = .ret ov tr e) := by
  exact ⟨rfl, _, _, _, rfl⟩

/-! ### Claim C7 -/

/-- `parseField` under explicit key, default and resolved string. -/
theorem parseField_eval (p : Parser) (ext : Externals) (pre : GS)
    (meta : FieldMeta) (ty : GoTy) (v : GoVal) (k d s : GS)
    (hexp : meta.exported = true)
    (hkd : parseStructTags (fieldTagVal meta) = (k, d))
    (hs : p.get (p.buildKey (composeKey pre k)) d = s)
    (hns : ¬(s = [] ∧ kindOf ty ≠ .kstruct)) :
    parseField p ext pre meta ty v =
      ((ParseValue p ext ty v s pre (composeKey pre k)).1,
       .get (p.buildKey (composeKey pre k)) d ::
         (ParseValue p ext ty v s pre (composeKey pre k)).2.1,
       (ParseValue p ext ty v s pre (composeKey pre k)).2.2) := by
  have h := parseField_go p ext pre meta ty v hexp (by rw [hkd, hs]; exact hns)
  rw [hkd] at h
  rw [h, hs]

/-- `parseField` skip case under explicit key and default. -/
theorem parseField_skip_eval (p : Parser) (ext : Externals) (pre : GS)
    (meta : FieldMeta) (ty : GoTy) (v : GoVal) (k d : GS)
    (hexp : meta.exported = true)
    (hkd : parseStructTags (fieldTagVal meta) = (k, d))
    (hs : p.get (p.buildKey (composeKey pre k)) d = [])
    (hkind : kindOf ty ≠ .kstruct) :
    parseField p ext pre meta ty v =
      (v, [.get (p.buildKey (composeKey pre k)) d], none) := by
  have h := parseField_skip p ext pre meta ty v hexp hkind (by rw [hkd]; exact hs)
  rw [hkd] at h
  exact h

/-- C7: the field walk stops at the first field-level error and returns
exactly that error, with no aggregation of later failures and no
rollback: every field parsed before the failing one keeps its parsed
value, the failing field keeps whatever its dispatch wrote, and every
field after the failing one is left untouched; no collaborator call is
made past the failing field. -/
theorem C7_first_error_aborts (p : Parser) (ext : Externals) (pre : GS) :
    ∀ (fs1 : List (FieldMeta × GoTy)) (vs1 vs1' : List GoVal) (tr1 : List Ev)
      (meta : FieldMeta) (fty : GoTy) (fv v' : GoVal) (tr : List Ev) (e : GS)
      (fs2 : List (FieldMeta × GoTy)) (vs2 : List GoVal),
      fs1.length = vs1.length →
      parseStructFields p ext pre fs1 vs1 = (vs1', tr1, none) →
      parseField p ext pre meta fty fv = (v', tr, some e) →
      parseStructFields p ext pre (fs1 ++ (meta, fty) :: fs2) (vs1 ++ fv :: vs2) =
        (vs1' ++ v' :: vs2, tr1 ++ tr, some e) := by
  intro fs1
  induction fs1 with
  | nil =>
    intro vs1 vs1' tr1 meta fty fv v' tr e fs2 vs2 hlen h2 h3
    cases vs1 with
    | cons _ _ => simp at hlen
    | nil =>
      rw [PSF_nil] at h2
      have h4 : ([] : List GoVal) = vs1' := congrArg (fun x => x.1) h2
      have h5 : ([] : List Ev) = tr1 := congrArg (fun x => x.2.1) h2
      rw [← h4, ← h5]
      simp only [List.nil_append]
      exact PSF_cons_err p ext pre meta fty fs2 fv vs2 v' tr e h3
  | cons f0 fs1' ih =>
    intro vs1 vs1' tr1 meta fty fv v' tr e fs2 vs2 hlen h2 h3
    obtain ⟨m0, t0⟩ := f0
    cases vs1 with
    | nil => simp at hlen
    | cons v0 vs1'' =>
      rcases hr : parseField p ext pre m0 t0 v0 with ⟨a, b, c⟩
      cases c with
      | some e0 =>
        rw [PSF_cons_err p ext pre m0 t0 fs1' v0 vs1'' a b e0 hr] at h2
        exact absurd (congrArg (fun x => x.2.2) h2) (by simp)
      | none =>
        rw [PSF_cons_ok p ext pre m0 t0 fs1' v0 vs1'' a b hr] at h2
        rcases hR : parseStructFields p ext pre fs1' vs1'' with ⟨R1, R2, R3⟩
        rw [hR] at h2
        have hv : vs1' = a :: R1 := (congrArg (fun x => x.1) h2).symm
        have ht : tr1 = b ++ R2 := (congrArg (fun x => x.2.1) h2).symm
        have hn : R3 = none := congrArg (fun x => x.2.2) h2
        have hlen' : fs1'.length = vs1''.length := by
          simp at hlen; omega
        have hIH := ih vs1'' R1 R2 meta fty fv v' tr e fs2 vs2 hlen'
          (by rw [hR, hn]) h3
        rw [List.cons_append, List.cons_append]
        rw [PSF_cons_ok p ext pre m0 t0 (fs1' ++ (meta, fty) :: fs2) v0
          (vs1'' ++ fv :: vs2) a b hr]
        rw [hIH, hv, ht]
        simp

/-- Environment table for the C7 run: `A` and `C` resolve to numerals,
`B` resolves to a non-numeral. -/
def c7Table : List (GS × GS) :=
  [("A".data, "1".data), ("B".data, "x".data), ("C".data, "3".data)]

/-- Witness for C7: in a three-field struct where the middle field's
value fails integer parsing, the walk returns that error, keeps the
first field's parsed value, leaves the third at its old value, and makes
no lookup for the third field. -/
theorem C7_first_error_aborts_witness :
    parseStructFields (lookupParser c7Table) failExternals []
        [(mA, .tint 64), (mB, .tint 64), (mC, .tint 64)]
        [.vint 64 0, .vint 64 0, .vint 64 0] =
      ([.vint 64 1, .vint 64 0, .vint 64 0],
       [.get ("A".data) [], .get ("B".data) []],
       some ("strconv.ParseInt: parsing x: invalid syntax".data)) := by
  have hA : parseField (lookupParser c7Table) failExternals [] mA (.tint 64)
      (.vint 64 0) = (.vint 64 1, [.get ("A".data) []], none) := by
    rw [parseField_eval (lookupParser c7Table) failExternals [] mA (.tint 64)
      (.vint 64 0) ("A".data) [] ("1".data) rfl rfl (by decide) (by decide), PV_int]
    rfl
  have hB : parseField (lookupParser c7Table) failExternals [] mB (.tint 64)
      (.vint 64 0) =
      (.vint 64 0, [.get ("B".data) []],
       some ("strconv.ParseInt: parsing x: invalid syntax".data)) := by
    rw [parseField_eval (lookupParser c7Table) failExternals [] mB (.tint 64)
      (.vint 64 0) ("B".data) [] ("x".data) rfl rfl (by decide) (by decide), PV_int]
    rfl
  have h2 : parseStructFields (lookupParser c7Table) failExternals []
      [(mA, .tint 64)] [.vint 64 0] =
      ([.vint 64 1], [.get ("A".data) []], none) := by
    rw [PSF_cons_ok _ _ _ _ _ _ _ _ _ _ hA, PSF_nil]
    simp
  have h := C7_first_error_aborts (lookupParser c7Table) failExternals []
    [(mA, .tint 64)] [.vint 64 0] [.vint 64 1] [.get ("A".data) []] mB (.tint 64)
    (.vint 64 0) (.vint 64 0) [.get ("B".data) []]
    ("strconv.ParseInt: parsing x: invalid syntax".data)
    [(mC, .tint 64)] [.vint 64 0] rfl h2 hB
  simpa using h

/-! ### Claim C4 -/

/-- A map-loop step whose key and value both parse: the entry is
inserted and the loop continues. -/
theorem PMP_step_ok (p : Parser) (ext : Externals) (kt vt : GoTy)
    (pair k0 v0 : GS) (rest : List GS) (pairs : List GS)
    (entries : List (GoVal × GoVal)) (kval vval : GoVal) (ktr vtr : List Ev)
    (hsp : splitChar ':' pair = k0 :: v0 :: rest)
    (hk : ParseValue p ext kt (zeroVal kt) (goTrimSpace k0) [] [] = (kval, ktr, none))
    (hv : ParseValue p ext vt (zeroVal vt) (goTrimSpace v0) [] [] = (vval, vtr, none)) :
    parseMapPairs p ext kt vt (pair :: pairs) entries =
      ((parseMapPairs p ext kt vt pairs (setMapIndex entries kval vval)).1,
       ktr ++ vtr ++
         (parseMapPairs p ext kt vt pairs (setMapIndex entries kval vval)).2.1,
       (parseMapPairs p ext kt vt pairs (setMapIndex entries kval vval)).2.2) := by
  rw [PMP_cons, hsp]
  simp only [hk, hv]

/-- C4 counterexample: pair token `"1:a:b"` is split on *every* colon and
only segments 0 and 1 are kept, so the value is `"a"`, not `"a:b"` — the
text after the second colon is dropped, contradicting "the value keeps
any further colons and the rest of the token intact". -/
theorem C4_second_colon_counterexample :
    ParseValue idParser failExternals (.tmap (.tint 64) .tstr)
        (.vmap (.tint 64) .tstr []) "1:a:b".data [] [] =
      (.vmap (.tint 64) .tstr [(.vint 64 1, .vstr "a".data)], [], none) ∧
    ("a".data : GS) ≠ "a:b".data := by
  refine ⟨?_, by decide⟩
  rw [PV_map]
  have hs : splitStr ("1:a:b".data) = ["1:a:b".data] := by decide
  rw [hs]
  rw [PMP_step_ok idParser failExternals (.tint 64) .tstr ("1:a:b".data)
    ("1".data) ("a".data) ["b".data] [] [] (.vint 64 1) (.vstr "a".data) [] []
    (by decide) (by rw [PV_int]; rfl) (by rw [PV_str]; rfl)]
  rw [PMP_nil]
  rfl

/-- C4 amended: each pair token is split on every colon; a token with no
colon aborts map coercion with an error that embeds the offending token;
a token with at least one colon contributes the entry (trimmed segment
0, trimmed segment 1) — the trimmed text between the first and the
second colon — so anything after a second colon is dropped, while spaces
within segment 1 are preserved. -/
theorem C4_pair_token_split :
    (∀ (p : Parser) (ext : Externals) (kt vt : GoTy) (pair x : GS)
      (pairs : List GS) (entries : List (GoVal × GoVal)),
      splitChar ':' pair = [x] →
      parseMapPairs p ext kt vt (pair :: pairs) entries =
        (entries, [], some (mapPairFormatErr pair))) ∧
    (∀ pair : GS, mapPairFormatErr pair =
      pair ++ " can not is in wrong format as key value pair".data) ∧
    (∀ (p : Parser) (ext : Externals) (pair k0 v0 : GS) (rest : List GS)
      (pairs : List GS) (entries : List (GoVal × GoVal)),
      splitChar ':' pair = k0 :: v0 :: rest →
      parseMapPairs p ext .tstr .tstr (pair :: pairs) entries =
        ((parseMapPairs p ext .tstr .tstr pairs
            (setMapIndex entries (.vstr (goTrimSpace k0)) (.vstr (goTrimSpace v0)))).1,
         (parseMapPairs p ext .tstr .tstr pairs
            (setMapIndex entries (.vstr (goTrimSpace k0)) (.vstr (goTrimSpace v0)))).2.1,
         (parseMapPairs p ext .tstr .tstr pairs
            (setMapIndex entries (.vstr (goTrimSpace k0)) (.vstr (goTrimSpace v0)))).2.2)) ∧
    (∀ (p : Parser) (ext : Externals),
      parseMapPairs p ext (.tint 64) .tstr ["1:Hello world".data] [] =
        ([(.vint 64 1, .vstr "Hello world".data)], [], none)) := by
  refine ⟨?_, fun pair => rfl, ?_, ?_⟩
  · intro p ext kt vt pair x pairs entries hsp
    rw [PMP_cons, hsp]
  · intro p ext pair k0 v0 rest pairs entries hsp
    rw [PMP_step_ok p ext .tstr .tstr pair k0 v0 rest pairs entries
      (.vstr (goTrimSpace k0)) (.vstr (goTrimSpace v0)) [] []
      hsp (PV_str p ext (zeroVal .tstr) (goTrimSpace k0) [] [])
      (PV_str p ext (zeroVal .tstr) (goTrimSpace v0) [] [])]
    rfl
  · intro p ext
    rw [PMP_step_ok p ext (.tint 64) .tstr ("1:Hello world".data)
      ("1".data) ("Hello world".data) [] [] [] (.vint 64 1)
      (.vstr ("Hello world".data)) [] []
      (by decide) (by rw [PV_int]; rfl) (by rw [PV_str]; rfl)]
    rw [PMP_nil]
    rfl

/-- Witness for C4 amended at concrete inputs: token `"k v"` (no colon)
errors naming the token; token `"a: b c"` yields entry `a → b c`. -/
theorem C4_pair_token_split_witness :
    parseMapPairs idParser failExternals .tstr .tstr ["k v".data] [] =
      ([], [], some (mapPairFormatErr ("k v".data))) ∧
    parseMapPairs idParser failExternals .tstr .tstr ["a: b c".data] [] =
      ([(.vstr "a".data, .vstr "b c".data)], [], none) := by
  constructor
  · exact C4_pair_token_split.1 idParser failExternals .tstr .tstr ("k v".data)
      ("k v".data) [] [] (by decide)
  · have h := C4_pair_token_split.2.2.1 idParser failExternals ("a: b c".data)
      ("a".data) (" b c".data) [] [] [] (by decide)
    rw [h, PMP_nil]
    have h1 : goTrimSpace ("a".data) = "a".data := by decide
    have h2 : goTrimSpace (" b c".data) = "b c".data := by decide
    rw [h1, h2]
    rfl

/-! ### Claim C8 -/

/-- C8 counterexample: a field tagged `-` is *not* skipped
unconditionally: the walk still performs a lookup (with the degenerate
composed key, here the empty string), and with a value source that
resolves every key to `"42"` the int field ends up `42`, not its zero
value. -/
theorem C8_dash_not_unconditional_counterexample :
    ParseStruct (constParser ("42".data)) failExternals
        (.ptrTo (.tstruct false [(mDash, .tint 64)]) (.vstruct [.vint 64 0])) [] =
      .ret (some (.vstruct [.vint 64 42])) [.get [] []] none ∧
    (GoVal.vint 64 42) ≠ zeroVal (.tint 64) := by
  refine ⟨?_, by rw [zeroVal]; intro h; cases h⟩
  have h1 : parseField (constParser ("42".data)) failExternals [] mDash (.tint 64)
      (.vint 64 0) = (.vint 64 42, [.get [] []], none) := by
    rw [parseField_eval (constParser ("42".data)) failExternals [] mDash (.tint 64)
      (.vint 64 0) [] [] ("42".data) rfl rfl rfl (by decide), PV_int]
    rfl
  have h0 : ParseStruct (constParser ("42".data)) failExternals
      (.ptrTo (.tstruct false [(mDash, .tint 64)]) (.vstruct [.vint 64 0])) [] =
      .ret (some (.vstruct (parseStructFields (constParser ("42".data)) failExternals
          [] [(mDash, .tint 64)] [.vint 64 0]).1))
        (parseStructFields (constParser ("42".data)) failExternals
          [] [(mDash, .tint 64)] [.vint 64 0]).2.1
        (parseStructFields (constParser ("42".data)) failExternals
          [] [(mDash, .tint 64)] [.vint 64 0]).2.2 := rfl
  rw [h0, PSF_cons_ok _ _ _ _ _ _ _ _ _ _ h1, PSF_nil]
  rfl

/-- C8 amended: an annotation that is empty after trimming or is the
sentinel `-` parses to an empty key and empty default; the field still
performs one lookup, with just the prefix-composed empty key and an
empty default; a non-struct-kind field is left at its zero value exactly
when that lookup resolves to the empty string (as the default
environment source does when the degenerate key is unset), while a
struct-kind field is recursed into regardless, with the degenerate
composed key as the new prefix. -/
theorem C8_skip_tag_behavior :
    (∀ t : GS, (goTrimSpace t = [] ∨ goTrimSpace t = "-".data) →
      parseStructTags t = ([], [])) ∧
    (∀ (p : Parser) (ext : Externals) (pre : GS) (meta : FieldMeta)
      (ty : GoTy) (v : GoVal),
      meta.exported = true →
      parseStructTags (fieldTagVal meta) = ([], []) →
      kindOf ty ≠ .kstruct →
      p.get (p.buildKey (composeKey pre [])) [] = [] →
      parseField p ext pre meta ty v =
        (v, [.get (p.buildKey (composeKey pre [])) []], none)) ∧
    (∀ (p : Parser) (ext : Externals) (pre : GS) (meta : FieldMeta)
      (f : FieldMeta × GoTy) (fs' : List (FieldMeta × GoTy)) (vs : List GoVal),
      meta.exported = true →
      parseStructTags (fieldTagVal meta) = ([], []) →
      parseField p ext pre meta (.tstruct false (f :: fs')) (.vstruct vs) =
        (.vstruct (parseStructFields p ext (composeKey pre []) (f :: fs') vs).1,
         .get (p.buildKey (composeKey pre [])) [] ::
           (parseStructFields p ext (composeKey pre []) (f :: fs') vs).2.1,
         (parseStructFields p ext (composeKey pre []) (f :: fs') vs).2.2)) := by
  refine ⟨?_, ?_, ?_⟩
  · intro t h
    rw [parseStructTags]
    rw [if_pos (h.elim (fun h1 => Or.inr h1) (fun h2 => Or.inl h2))]
  · intro p ext pre meta ty v hexp hkd hkind hget
    exact parseField_skip_eval p ext pre meta ty v [] [] hexp hkd hget hkind
  · intro p ext pre meta f fs' vs hexp hkd
    rw [parseField_eval p ext pre meta (.tstruct false (f :: fs')) (.vstruct vs)
      [] [] (p.get (p.buildKey (composeKey pre [])) []) hexp hkd rfl
      (fun hh => hh.2 rfl), PV_struct]

/-- Witness for C8 amended: the sentinel tag parses to `("", "")`, and
with the defaulting value source (which resolves the degenerate key to
the empty string) the tagged int field is skipped at its zero value. -/
theorem C8_skip_tag_behavior_witness :
    parseStructTags ("-".data) = ([], []) ∧
    parseField idParser failExternals [] mDash (.tint 64) (.vint 64 0) =
      (.vint 64 0, [.get [] []], none) := by
  constructor
  · exact C8_skip_tag_behavior.1 ("-".data) (Or.inr (by decide))
  · have h := C8_skip_tag_behavior.2.1 idParser failExternals [] mDash (.tint 64)
      (.vint 64 0) rfl rfl (by decide) rfl
    simpa using h

/-! ### Claim C2 -/

/-- `ParseStruct` on a valid pointer to a plain struct runs the field
loop. -/
theorem ParseStruct_struct (p : Parser) (ext : Externals) (sp : Bool)
    (fs : List (FieldMeta × GoTy)) (vs : List GoVal) (pre : GS) :
    ParseStruct p ext (.ptrTo (.tstruct sp fs) (.vstruct vs)) pre =
      .ret (some (.vstruct (parseStructFields p ext pre fs vs).1))
        (parseStructFields p ext pre fs vs).2.1
        (parseStructFields p ext pre fs vs).2.2 := rfl

/-- C2 counterexample: `time.Time` has struct kind, so an untagged
`When time.Time` field whose resolved string is empty is *not* skipped:
it is handed to the time converter, which fails on the empty string, and
the walk returns that error instead of no error (and performs no nested
descent — the trace holds only the field's own lookup). -/
theorem C2_empty_time_field_errors_counterexample :
    ParseStruct idParser failExternals (.ptrTo timeCfgTy (zeroVal timeCfgTy)) [] =
      .ret (some (.vstruct [.vtime none])) [.get ("WHEN".data) []]
        (some ("time: could not parse  with any layout".data)) ∧
    (some ("time: could not parse  with any layout".data) : Option GS) ≠ none := by
  refine ⟨?_, by simp⟩
  have h1 : parseField idParser failExternals [] mWhen .ttime (.vtime none) =
      (.vtime none, [.get ("WHEN".data) []],
       some ("time: could not parse  with any layout".data)) := by
    rw [parseField_eval idParser failExternals [] mWhen .ttime (.vtime none)
      ("WHEN".data) [] [] rfl rfl rfl (fun hh => hh.2 rfl), PV_time]
    rfl
  have h0 : ParseStruct idParser failExternals
      (.ptrTo timeCfgTy (zeroVal timeCfgTy)) [] =
      .ret (some (.vstruct (parseStructFields idParser failExternals []
          [(mWhen, .ttime)] [.vtime none]).1))
        (parseStructFields idParser failExternals []
          [(mWhen, .ttime)] [.vtime none]).2.1
        (parseStructFields idParser failExternals []
          [(mWhen, .ttime)] [.vtime none]).2.2 := rfl
  rw [h0, PSF_cons_err _ _ _ _ _ _ _ _ _ _ _ h1]

/-- C2 amended: an exported field with an empty resolved string and a
non-struct kind is skipped at its zero value with no error; a field of
plain struct type is always dispatched into the nested walk, whatever
its own resolved string (empty included), with the composed key as the
new prefix — so a nested struct in which only a grandchild key resolves
still gets that grandchild populated.  (`time.Time` fields, which also
have struct kind, instead go to the time converter and make the walk
error on an empty string, as the counterexample shows.) -/
theorem C2_empty_skip_struct_descend :
    (∀ (p : Parser) (ext : Externals) (pre : GS) (meta : FieldMeta)
      (ty : GoTy) (v : GoVal) (k d : GS),
      meta.exported = true →
      parseStructTags (fieldTagVal meta) = (k, d) →
      kindOf ty ≠ .kstruct →
      p.get (p.buildKey (composeKey pre k)) d = [] →
      parseField p ext pre meta ty v =
        (v, [.get (p.buildKey (composeKey pre k)) d], none)) ∧
    (∀ (p : Parser) (ext : Externals) (pre : GS) (meta : FieldMeta)
      (f : FieldMeta × GoTy) (fs' : List (FieldMeta × GoTy)) (vs : List GoVal)
      (k d : GS),
      meta.exported = true →
      parseStructTags (fieldTagVal meta) = (k, d) →
      parseField p ext pre meta (.tstruct false (f :: fs')) (.vstruct vs) =
        (.vstruct (parseStructFields p ext (composeKey pre k) (f :: fs') vs).1,
         .get (p.buildKey (composeKey pre k)) d ::
           (parseStructFields p ext (composeKey pre k) (f :: fs') vs).2.1,
         (parseStructFields p ext (composeKey pre k) (f :: fs') vs).2.2)) ∧
    ParseStruct (lookupParser [("APP_S_G".data, "hi".data)]) failExternals
        (.ptrTo nestedCfgTy (zeroVal nestedCfgTy)) ("APP".data) =
      .ret (some (.vstruct [.vstruct [.vstr "hi".data]]))
        [.get ("APP_S".data) [], .get ("APP_S_G".data) []] none := by
  refine ⟨?_, ?_, ?_⟩
  · intro p ext pre meta ty v k d hexp hkd hkind hget
    exact parseField_skip_eval p ext pre meta ty v k d hexp hkd hget hkind
  · intro p ext pre meta f fs' vs k d hexp hkd
    rw [parseField_eval p ext pre meta (.tstruct false (f :: fs')) (.vstruct vs)
      k d (p.get (p.buildKey (composeKey pre k)) d) hexp hkd rfl
      (fun hh => hh.2 rfl), PV_struct]
  · have hG : parseField (lookupParser [("APP_S_G".data, "hi".data)]) failExternals
        ("APP.S".data) mG .tstr (.vstr []) =
        (.vstr "hi".data, [.get ("APP_S_G".data) []], none) := by
      rw [parseField_eval (lookupParser [("APP_S_G".data, "hi".data)]) failExternals
        ("APP.S".data) mG .tstr (.vstr []) ("G".data) [] ("hi".data) rfl rfl
        (by decide) (by decide), PV_str]
      rfl
    have hS : parseField (lookupParser [("APP_S_G".data, "hi".data)]) failExternals
        ("APP".data) mS (.tstruct false [(mG, .tstr)]) (.vstruct [.vstr []]) =
        (.vstruct [.vstr "hi".data],
         [.get ("APP_S".data) [], .get ("APP_S_G".data) []], none) := by
      rw [parseField_eval (lookupParser [("APP_S_G".data, "hi".data)]) failExternals
        ("APP".data) mS (.tstruct false [(mG, .tstr)]) (.vstruct [.vstr []])
        ("S".data) [] [] rfl rfl (by decide) (fun hh => hh.2 rfl), PV_struct]
      have hcomp : composeKey ("APP".data) ("S".data) = "APP.S".data := by decide
      rw [hcomp, PSF_cons_ok _ _ _ _ _ _ _ _ _ _ hG, PSF_nil]
      rfl
    have h0 : ParseStruct (lookupParser [("APP_S_G".data, "hi".data)]) failExternals
        (.ptrTo nestedCfgTy (zeroVal nestedCfgTy)) ("APP".data) =
        .ret (some (.vstruct (parseStructFields
            (lookupParser [("APP_S_G".data, "hi".data)]) failExternals ("APP".data)
            [(mS, .tstruct false [(mG, .tstr)])] [.vstruct [.vstr []]]).1))
          (parseStructFields (lookupParser [("APP_S_G".data, "hi".data)])
            failExternals ("APP".data)
            [(mS, .tstruct false [(mG, .tstr)])] [.vstruct [.vstr []]]).2.1
          (parseStructFields (lookupParser [("APP_S_G".data, "hi".data)])
            failExternals ("APP".data)
            [(mS, .tstruct false [(mG, .tstr)])] [.vstruct [.vstr []]]).2.2 := rfl
    rw [h0, PSF_cons_ok _ _ _ _ _ _ _ _ _ _ hS, PSF_nil]
    rfl

/-- Witness for C2 amended: an int field with empty resolution is
skipped at zero; a struct field with empty resolution is still descended
into. -/
theorem C2_empty_skip_struct_descend_witness :
    parseField idParser failExternals [] mA (.tint 64) (.vint 64 0) =
      (.vint 64 0, [.get ("A".data) []], none) ∧
    parseField idParser failExternals [] mS (.tstruct false [(mG, .tstr)])
        (.vstruct [.vstr []]) =
      (.vstruct (parseStructFields idParser failExternals
          (composeKey [] ("S".data)) [(mG, .tstr)] [.vstr []]).1,
       .get (idParser.buildKey (composeKey [] ("S".data))) [] ::
         (parseStructFields idParser failExternals
           (composeKey [] ("S".data)) [(mG, .tstr)] [.vstr []]).2.1,
       (parseStructFields idParser failExternals
         (composeKey [] ("S".data)) [(mG, .tstr)] [.vstr []]).2.2) := by
  constructor
  · have h := C2_empty_skip_struct_descend.1 idParser failExternals [] mA
      (.tint 64) (.vint 64 0) ("A".data) [] rfl rfl (by decide) rfl
    simpa using h
  · exact C2_empty_skip_struct_descend.2.1 idParser failExternals [] mS
      (mG, .tstr) [] [.vstr []] ("S".data) [] rfl rfl

/-! ### Claim C1 -/

/-- `chainTy` through `chainFields`. -/
theorem chainTy_eq (c : Chain) : chainTy c = .tstruct false (chainFields c) := by
  cases c <;> rfl

/-- Every chain type has struct kind. -/
theorem kindOf_chainTy (c : Chain) : kindOf (chainTy c) = .kstruct := by
  cases c <;> rfl

/-- Every chain level has exactly one field. -/
theorem chainFields_single (c : Chain) : ∃ f, chainFields c = [f] := by
  cases c <;> exact ⟨_, rfl⟩

/-- Unfolding of `zeroVal` on struct types. -/
@[simp]
theorem zeroVal_struct (sp : Bool) (fs : List (FieldMeta × GoTy)) :
    zeroVal (.tstruct sp fs) = .vstruct (zeroFields fs) := by
  rw [zeroVal.eq_def]

/-- Unfolding of `zeroFields`. -/
@[simp]
theorem zeroFields_cons (f : FieldMeta × GoTy) (fs : List (FieldMeta × GoTy)) :
    zeroFields (f :: fs) = zeroVal f.2 :: zeroFields fs := by
  rw [zeroFields.eq_def]

/-- `zeroFields` of no fields. -/
@[simp]
theorem zeroFields_nil : zeroFields [] = [] := by
  rw [zeroFields.eq_def]

/-- The trace of walking a chain from its zero value under any prefix is
exactly `chainEvents`: one `Get` per level with the transform applied to
the composed key, the untransformed composed key handed down as the next
prefix, and a final `ParseEnv` call for a self-parsing tail. -/
theorem chain_psf_trace (p : Parser) (ext : Externals) :
    ∀ (c : Chain) (pre : GS), ChainGood c →
      (parseStructFields p ext pre (chainFields c)
          (zeroFields (chainFields c))).2.1 = chainEvents p pre c := by
  intro c
  induction c with
  | last k =>
    intro pre hg
    have hkd : parseStructTags (fieldTagVal (chainMeta k)) = (k, []) := hg
    rw [chainFields, zeroFields_cons, zeroFields_nil]
    by_cases hget : p.get (p.buildKey (composeKey pre k)) [] = []
    · rw [PSF_cons_ok _ _ _ _ _ _ _ _ _ _
        (parseField_skip_eval p ext pre (chainMeta k) .tstr (zeroVal .tstr)
          k [] rfl hkd hget (by decide)), PSF_nil]
      simp [chainEvents]
    · rw [PSF_cons_ok _ _ _ _ _ _ _ _ _ _ (by
        rw [parseField_eval p ext pre (chainMeta k) .tstr (zeroVal .tstr)
          k [] (p.get (p.buildKey (composeKey pre k)) []) rfl hkd rfl
          (fun hh => hget hh.1), PV_str]), PSF_nil]
      simp [chainEvents]
  | spLast k =>
    intro pre hg
    have hkd : parseStructTags (fieldTagVal (chainMeta k)) = (k, []) := hg
    rw [chainFields, zeroFields_cons, zeroFields_nil]
    have hpf := parseField_eval p ext pre (chainMeta k) (.tstruct true [])
      (zeroVal (.tstruct true [])) k []
      (p.get (p.buildKey (composeKey pre k)) []) rfl hkd rfl
      (fun hh => hh.2 rfl)
    rw [PV_structSp] at hpf
    rcases he : (ext.parseEnvImpl (composeKey pre k)
        (zeroVal (.tstruct true []))).2 with _ | e
    · rw [PSF_cons_ok _ _ _ _ _ _ _ _ _ _ (by rw [hpf, he]), PSF_nil]
      simp [chainEvents]
    · rw [PSF_cons_err _ _ _ _ _ _ _ _ _ _ _ (by rw [hpf, he])]
      simp [chainEvents]
  | nest k c' ih =>
    intro pre hg
    have hkd : parseStructTags (fieldTagVal (chainMeta k)) = (k, []) := hg.1
    obtain ⟨f, hf⟩ := chainFields_single c'
    rw [chainFields, zeroFields_cons, zeroFields_nil]
    have hpf := parseField_eval p ext pre (chainMeta k) (chainTy c')
      (zeroVal (chainTy c')) k []
      (p.get (p.buildKey (composeKey pre k)) []) rfl hkd rfl
      (fun hh => hh.2 (kindOf_chainTy c'))
    have hz : zeroVal (chainTy c') = .vstruct (zeroFields (chainFields c')) := by
      rw [chainTy_eq c', zeroVal_struct]
    have hPV : ParseValue p ext (chainTy c') (zeroVal (chainTy c'))
        (p.get (p.buildKey (composeKey pre k)) []) pre (composeKey pre k) =
        (.vstruct (parseStructFields p ext (composeKey pre k) (chainFields c')
            (zeroFields (chainFields c'))).1,
         (parseStructFields p ext (composeKey pre k) (chainFields c')
            (zeroFields (chainFields c'))).2.1,
         (parseStructFields p ext (composeKey pre k) (chainFields c')
            (zeroFields (chainFields c'))).2.2) := by
      rw [hz, chainTy_eq c', hf]
      exact PV_struct p ext f [] (zeroFields [f]) _ pre (composeKey pre k)
    rw [hPV] at hpf
    rcases hinner : (parseStructFields p ext (composeKey pre k) (chainFields c')
        (zeroFields (chainFields c'))).2.2 with _ | e
    · rw [PSF_cons_ok _ _ _ _ _ _ _ _ _ _ (by rw [hpf, hinner]), PSF_nil]
      rw [chainEvents, ← ih (composeKey pre k) hg.2]
      simp
    · rw [PSF_cons_err _ _ _ _ _ _ _ _ _ _ _ (by rw [hpf, hinner])]
      rw [chainEvents, ← ih (composeKey pre k) hg.2]

/-- The lookup for the deepest field of a chain uses the transform of
the fully composed dotted key. -/
theorem chain_path_mem (p : Parser) :
    ∀ (c : Chain) (P : GS), P ≠ [] →
      Ev.get (p.buildKey (composeKey P (chainPath c))) [] ∈ chainEvents p P c := by
  intro c
  induction c with
  | last k => intro P hP; simp [chainEvents, chainPath]
  | spLast k => intro P hP; simp [chainEvents, chainPath]
  | nest k c' ih =>
    intro P hP
    rw [chainEvents, chainPath, ← composeKey_assoc hP]
    exact List.mem_cons_of_mem _ (ih (composeKey P k) (composeKey_ne_nil hP k))

/-- A self-parsing tail receives the untransformed fully composed key as
its prefix. -/
theorem chain_penv_mem (p : Parser) :
    ∀ (c : Chain) (P : GS), P ≠ [] → chainEndsSp c = true →
      Ev.penv (composeKey P (chainPath c)) ∈ chainEvents p P c := by
  intro c
  induction c with
  | last k => intro P hP hsp; simp [chainEndsSp] at hsp
  | spLast k => intro P hP hsp; simp [chainEvents, chainPath]
  | nest k c' ih =>
    intro P hP hsp
    rw [chainEvents, chainPath, ← composeKey_assoc hP]
    exact List.mem_cons_of_mem _
      (ih (composeKey P k) (composeKey_ne_nil hP k) hsp)

/-- C1: along every chain of nested structures (arbitrary depth), each
level performs its lookup with the pluggable transform applied once to
the fully composed dotted key (prefix and key joined with `"."`, prefix
omitted when empty), the untransformed dotted key is what is handed down
as the new prefix to nested `ParseStruct`/`ParseEnv` calls, composition
is associative across levels, and the deepest field `F` of a structure
field `S` under root prefix `P` is looked up under
`transform(P + "." + S + "." + F)`. -/
theorem C1_nested_key_composition (p : Parser) (ext : Externals) (P : GS)
    (c : Chain) (hg : ChainGood c) (hP : P ≠ []) :
    (ParseStruct p ext (.ptrTo (chainTy c) (zeroVal (chainTy c))) P).trOf =
      chainEvents p P c ∧
    Ev.get (p.buildKey (composeKey P (chainPath c))) [] ∈ chainEvents p P c ∧
    (chainEndsSp c = true →
      Ev.penv (composeKey P (chainPath c)) ∈ chainEvents p P c) ∧
    (∀ S F : GS, composeKey (composeKey P S) F = composeKey P (S ++ '.' :: F)) ∧
    (∀ k : GS, composeKey [] k = k) := by
  refine ⟨?_, chain_path_mem p c P hP, chain_penv_mem p c P hP,
    fun S F => composeKey_assoc hP S F, composeKey_nil_left⟩
  rw [chainTy_eq c, zeroVal_struct, ParseStruct_struct]
  rw [TopOut.trOf]
  exact chain_psf_trace p ext c P hg

/-- Witness for C1 at a depth-3 chain under root prefix `APP` with the
default underscore transform: the three lookups use the transformed
composed keys `APP_SERVER`, `APP_SERVER_INNER`, `APP_SERVER_INNER_PORT`. -/
theorem C1_nested_key_composition_witness :
    ChainGood (.nest ("SERVER".data) (.nest ("INNER".data) (.last ("PORT".data)))) ∧
    (ParseStruct (lookupParser []) failExternals
        (.ptrTo (chainTy (.nest ("SERVER".data)
            (.nest ("INNER".data) (.last ("PORT".data)))))
          (zeroVal (chainTy (.nest ("SERVER".data)
            (.nest ("INNER".data) (.last ("PORT".data)))))))
        ("APP".data)).trOf =
      chainEvents (lookupParser []) ("APP".data)
        (.nest ("SERVER".data) (.nest ("INNER".data) (.last ("PORT".data)))) ∧
    chainEvents (lookupParser []) ("APP".data)
        (.nest ("SERVER".data) (.nest ("INNER".data) (.last ("PORT".data)))) =
      [.get ("APP_SERVER".data) [], .get ("APP_SERVER_INNER".data) [],
       .get ("APP_SERVER_INNER_PORT".data) []] := by
  refine ⟨⟨rfl, rfl, rfl⟩, ?_, by decide⟩
  exact (C1_nested_key_composition (lookupParser []) failExternals ("APP".data)
    (.nest ("SERVER".data) (.nest ("INNER".data) (.last ("PORT".data))))
    ⟨rfl, rfl, rfl⟩ (by decide)).1
